import Mathlib

/-!
Verification of the OnlineHub client (src/script.js) against its design
specification.  JavaScript strings are modelled as Lean strings (sequences
of Unicode scalar values); String.prototype.toLowerCase is modelled
characterwise by Char.toLower; JavaScript numbers appearing in scores and
similarities are modelled exactly by rationals; 32-bit wrap-around of the
bitwise hash is made explicit.  Fallible platform builtins (btoa) return
Except values.  Each class method is translated to a pure function, with
the mutable fields of its class passed and returned explicitly.
-/

/-- Characterwise model of JS String.prototype.toLowerCase. -/
def jsToLower (s : String) : String := ⟨s.data.map Char.toLower⟩

/-- UTF-16 code units of a string, as read by JS charCodeAt: scalar values
below 0x10000 are one unit, the rest split into a surrogate pair. -/
def utf16Units (s : String) : List Nat :=
  s.data.flatMap fun c =>
    let v := c.toNat
    if v < 0x10000 then [v]
    else [0xD800 + (v - 0x10000) / 0x400, 0xDC00 + (v - 0x10000) % 0x400]

/-- Normalize an integer into the signed 32-bit range, as JS bitwise
operators do. -/
def toInt32 (n : Int) : Int := (n + 2 ^ 31) % 2 ^ 32 - 2 ^ 31

/-- One step of the DuplicatePreventionService.generateVideoHash loop:
hash = ((hash << 5) - hash) + char; hash = hash & hash. -/
def hashStep (h : Int) (c : Nat) : Int := toInt32 (toInt32 (h * 32) - h + c)

/-- Base-36 digit character, as in Number.prototype.toString(36). -/
def base36Digit (n : Nat) : Char :=
  if n < 10 then Char.ofNat (48 + n) else Char.ofNat (87 + n)

/-- Base-36 digits of a number, accumulated most-significant first; the
first argument is structural fuel (the number itself suffices). -/
def base36Aux : Nat → Nat → List Char → List Char
  | 0, _, acc => acc
  | _ + 1, 0, acc => acc
  | fuel + 1, m + 1, acc =>
      base36Aux fuel ((m + 1) / 36) (base36Digit ((m + 1) % 36) :: acc)

/-- Number.prototype.toString(36) on a natural number. -/
def natToBase36 (n : Nat) : String :=
  if n = 0 then "0" else ⟨base36Aux n n []⟩

/-- Number.prototype.toString(36) on an integer (sign prepended). -/
def intToBase36 (i : Int) : String :=
  if i < 0 then "-" ++ natToBase36 i.natAbs else natToBase36 i.natAbs

-- ==================== DuplicatePreventionService ====================

/-- The fields of a parsed/candidate video that the duplicate guard reads;
a missing originalUrl is modelled as the empty string (falsy in JS). -/
structure VideoData where
  videoId : String
  type : String
  title : String
  originalUrl : String
  deriving DecidableEq, Repr

/-- DuplicatePreventionService.generateVideoHash. -/
def generateVideoHash (videoData : VideoData) : String :=
  let content :=
    jsToLower (videoData.videoId ++ "-" ++ videoData.type ++ "-" ++ videoData.title)
  intToBase36 ((utf16Units content).foldl hashStep 0)

/-- Inner loop of DuplicatePreventionService.editDistance: computes the
entries 1..n of the next dynamic-programming row.  prev holds the previous
row from column j-1 on (so its head is the diagonal value and the next
entry the value straight above), lastValue is the entry just written. -/
def levRowAux (c1 : Char) : List Char → List Nat → Nat → List Nat
  | [], _, _ => []
  | c2 :: s2t, prev, lastValue =>
    let diag := prev.headD 0
    let prevT := prev.tail
    let above := prevT.headD 0
    let newValue := if c1 = c2 then diag else min (min diag lastValue) above + 1
    newValue :: levRowAux c1 s2t prevT newValue

/-- Outer loop of DuplicatePreventionService.editDistance: folds the rows
i+1, i+2, ... over the remaining characters of the first string, starting
from the previous row prev. -/
def levRows (s2 : List Char) : List Char → Nat → List Nat → List Nat
  | [], _, prev => prev
  | c1 :: s1t, i, prev => levRows s2 s1t (i + 1) ((i + 1) :: levRowAux c1 s2 prev (i + 1))

/-- DuplicatePreventionService.editDistance: both inputs are lowercased,
row 0 is 0..n, and the answer is the last entry of the final row. -/
def editDistance (s1 s2 : String) : Nat :=
  let l1 := (jsToLower s1).data
  let l2 := (jsToLower s2).data
  (levRows l2 l1 0 (List.range (l2.length + 1))).getLastD 0

/-- DuplicatePreventionService.calculateSimilarity: 0 when either string
is falsy (empty), else (longer.length - editDistance) / longer.length. -/
def calculateSimilarity (str1 str2 : String) : ℚ :=
  if str1 = "" ∨ str2 = "" then 0
  else
    let longer := if str1.length > str2.length then str1 else str2
    let shorter := if str1.length > str2.length then str2 else str1
    if longer.length = 0 then 1
    else ((longer.length : ℚ) - editDistance longer shorter) / (longer.length : ℚ)

/-- DuplicatePreventionService.checkSimilarity: the url similarity is only
computed when both originalUrls are truthy (non-empty). -/
def checkSimilarity (video1 video2 : VideoData) (threshold : ℚ) : Bool :=
  let titleSimilarity := calculateSimilarity video1.title video2.title
  let urlSimilarity :=
    if video1.originalUrl ≠ "" ∧ video2.originalUrl ≠ "" then
      calculateSimilarity video1.originalUrl video2.originalUrl
    else 0
  max titleSimilarity urlSimilarity > threshold

/-- The constructor value this.similarityThreshold = 0.85. -/
def similarityThreshold : ℚ := 17 / 20

/-- DuplicatePreventionService.isDuplicate.  The service's videoHashes map
is modelled by the list of its keys (the stored values are never read);
the method returns its verdict together with the updated map. -/
def isDuplicate (videoHashes : List String) (videoData : VideoData)
    (existingVideos : List VideoData) : Bool × List String :=
  let hash := generateVideoHash videoData
  if videoHashes.contains hash then (true, videoHashes)
  else if existingVideos.any fun e => checkSimilarity videoData e similarityThreshold then
    (true, videoHashes)
  else (false, hash :: videoHashes)

-- ==================== Recently-played ledger ====================

/-- One record of EnhancedVideoManager.recentlyPlayed. -/
structure RPEntry where
  id : String
  playedAt : String
  playCount : Nat
  deriving DecidableEq, Repr

/-- EnhancedVideoManager.getRecentlyPlayedData. -/
def getRecentlyPlayedData (recentlyPlayed : List RPEntry) (videoId : String) :
    Option RPEntry :=
  recentlyPlayed.find? fun v => v.id == videoId

/-- EnhancedVideoManager.addToRecentlyPlayed (both variants, lines 810 and
2734, have this same body up to the storage write): the existing record is
spliced out first, then the play count is looked up (in the already
spliced list), the new record is unshifted, and the list truncated to 50.
now stands for new Date().toISOString(). -/
def addToRecentlyPlayed (recentlyPlayed : List RPEntry) (videoId : String)
    (now : String) : List RPEntry :=
  let spliced := recentlyPlayed.eraseP fun v => v.id == videoId
  let prevCount := ((getRecentlyPlayedData spliced videoId).map (·.playCount)).getD 0
  (({ id := videoId, playedAt := now, playCount := prevCount + 1 } : RPEntry)
    :: spliced).take 50

-- ==================== VideoAnalytics ====================

/-- The per-video record kept in VideoAnalytics.stats.  lastPlayed is an
epoch-milliseconds timestamp (null modelled as none); modelled as a
rational because it enters the recency-bonus division. -/
structure VideoStats where
  playCount : Nat
  completionCount : Nat
  errorCount : Nat
  loadCount : Nat
  seekCount : Nat
  totalWatchTime : Nat
  lastPlayed : Option ℚ
  deriving DecidableEq, Repr

/-- The default object returned by VideoAnalytics.getVideoStats when the
map has no entry for the video. -/
def defaultStats : VideoStats :=
  { playCount := 0, completionCount := 0, errorCount := 0, loadCount := 0,
    seekCount := 0, totalWatchTime := 0, lastPlayed := none }

/-- VideoAnalytics.getVideoStats over the stats map (modelled as an
association list). -/
def getVideoStats (stats : List (String × VideoStats)) (videoId : String) :
    VideoStats :=
  ((stats.find? fun p => p.1 == videoId).map (·.2)).getD defaultStats

/-- VideoAnalytics.calculatePopularityScore: playCount * 10 +
completionCount * 20 + recency bonus, where the bonus decays from 100 by
one point per day since lastPlayed and is clamped at 0 (0 when the video
was never played).  now is Date.now() in milliseconds. -/
def analyticsPopularityScore (stats : VideoStats) (now : ℚ) : ℚ :=
  let playScore : ℚ := stats.playCount * 10
  let completionScore : ℚ := stats.completionCount * 20
  let recencyBonus : ℚ :=
    match stats.lastPlayed with
    | some t => max 0 (100 - (now - t) / (1000 * 60 * 60 * 24))
    | none => 0
  playScore + completionScore + recencyBonus

-- ==================== Catalog entries and popularity ====================

/-- A catalog entry as built by AirtableService.getAllVideos (the fields
the manager's query surface reads). -/
structure CatalogVideo where
  id : String
  videoId : String
  title : String
  description : String
  type : String
  duration : String
  url : String
  embedUrls : List String
  createdAt : String
  status : String
  viewCount : Nat
  tags : List String
  category : String
  author : String
  deriving DecidableEq, Repr

/-- EnhancedVideoManager.calculatePopularityScore (line 2766): viewCount
plus 10 per ledger play count plus half the analytics score. -/
def managerPopularityScore (recentlyPlayed : List RPEntry)
    (stats : List (String × VideoStats)) (video : CatalogVideo) (now : ℚ) : ℚ :=
  let playCount := ((getRecentlyPlayedData recentlyPlayed video.id).map (·.playCount)).getD 0
  let viewCount : ℚ := video.viewCount
  let analyticsScore := analyticsPopularityScore (getVideoStats stats video.id) now
  viewCount + playCount * 10 + analyticsScore * (1 / 2)

/-- The UI "popular" indicator of createVideoItemHTML (line 2839):
the badge is rendered exactly when the popularity score exceeds 10. -/
def popularityBadge (recentlyPlayed : List RPEntry)
    (stats : List (String × VideoStats)) (video : CatalogVideo) (now : ℚ) : Bool :=
  managerPopularityScore recentlyPlayed stats video now > 10

/-- The formula named by the specification: viewCount + 10 * the ledger
play count (0 when the entry is absent from the ledger).  Stated from the
spec's words, to be compared with managerPopularityScore. -/
def specPopularityScore (recentlyPlayed : List RPEntry) (video : CatalogVideo) : ℚ :=
  let recentPlayCount :=
    ((getRecentlyPlayedData recentlyPlayed video.id).map (·.playCount)).getD 0
  (video.viewCount : ℚ) + 10 * recentPlayCount

-- ==================== Search ====================

/-- CONFIG.SEARCH.MIN_SEARCH_LENGTH. -/
def MIN_SEARCH_LENGTH : Nat := 2

/-- The values of the CONFIG.SEARCH.SEARCH_FIELDS fields of a video, in
order: title, description, type, tags, category, author.  JS reads
String(video[field] || ''); an array of tags stringifies to the
comma-joined tags. -/
def searchFieldValues (video : CatalogVideo) : List String :=
  [video.title, video.description, video.type,
   String.intercalate "," video.tags, video.category, video.author]

/-- EnhancedVideoManager.fuzzyMatch inner loop: walk the text, advancing
searchIndex on every character equal to the next search character, and
succeed as soon as searchIndex reaches the search length. -/
def fuzzyLoop (search : List Char) : List Char → Nat → Bool
  | [], _ => false
  | c :: rest, searchIndex =>
    let searchIndex' := if search.get? searchIndex = some c then searchIndex + 1 else searchIndex
    if searchIndex' = search.length then true else fuzzyLoop search rest searchIndex'

/-- EnhancedVideoManager.fuzzyMatch. -/
def fuzzyMatch (text search : String) : Bool :=
  fuzzyLoop search.data text.data 0

/-- EnhancedVideoManager.searchVideos (CONFIG.SEARCH.FUZZY_SEARCH is true,
so the fuzzy branch is taken). -/
def searchVideos (videos : List CatalogVideo) (searchTerm : String) :
    List CatalogVideo :=
  let searchLower := jsToLower searchTerm
  videos.filter fun video =>
    (searchFieldValues video).any fun fieldValue =>
      fuzzyMatch (jsToLower fieldValue) searchLower

-- ==================== EnhancedVideoPlayer ====================

/-- The view-level state of a playback session: the iframe is attempting a
candidate, the success handler has shown the player (Loaded), or the
fallback message has been displayed (Failed). -/
inductive SessionState where
  | attempting
  | loaded
  | failedShown
  deriving DecidableEq, Repr

/-- The mutable player fields a session touches: the candidate list
captured by loadVideo, currentEmbedIndex, whether the single
setTimeout-based stall timer is still pending, and the view state. -/
structure PlayerSession where
  urls : List String
  idx : Nat
  timerActive : Bool
  state : SessionState
  deriving DecidableEq, Repr

/-- The externally triggered events of one session: the iframe onload
signal, the iframe onerror signal, and the 10-second loading timeout
firing (possible only while the timer is pending). -/
inductive PlayerEvent where
  | load
  | error
  | timerFire
  deriving DecidableEq, Repr

/-- EnhancedVideoPlayer.handleEmbedError (line 3239): increment
currentEmbedIndex; if candidates remain, assign the next one to the
player src (returned as the emitted list), else show the fallback
message. -/
def handleEmbedError (s : PlayerSession) : PlayerSession × List String :=
  let idx' := s.idx + 1
  if idx' < s.urls.length then
    ({ s with idx := idx', state := .attempting }, [s.urls.getD idx' ""])
  else
    ({ s with idx := idx', state := .failedShown }, [])

/-- One event of a session.  onload clears the loading timeout and shows
the player; onerror clears the timeout and runs handleEmbedError; the
timeout callback (armed once, in loadVideo) only shows the fallback
message.  The second component lists the src assignments performed. -/
def sessionStep (s : PlayerSession) (e : PlayerEvent) : PlayerSession × List String :=
  match e with
  | .load => ({ s with timerActive := false, state := .loaded }, [])
  | .error => handleEmbedError { s with timerActive := false }
  | .timerFire =>
      if s.timerActive then ({ s with timerActive := false, state := .failedShown }, [])
      else (s, [])

/-- Run a session over a sequence of events, collecting src assignments. -/
def runEvents (s : PlayerSession) : List PlayerEvent → PlayerSession × List String
  | [] => (s, [])
  | e :: rest =>
    let (s1, out1) := sessionStep s e
    let (s2, out2) := runEvents s1 rest
    (s2, out1 ++ out2)

/-- The tail of EnhancedVideoPlayer.loadVideo for embed platforms:
currentEmbedIndex is reset to 0, the 10-second timeout armed, and
embedUrls[0] assigned to the player src. -/
def startSession (urls : List String) : PlayerSession × List String :=
  ({ urls := urls, idx := 0, timerActive := true, state := .attempting }, [urls.headD ""])

/-- The video fields EnhancedVideoPlayer.loadVideo reads.  embedUrls is
none when the record carries no list (JS then falls back to [url]). -/
structure PlayerVideo where
  id : String
  type : String
  url : String
  embedUrls : Option (List String)
  deriving DecidableEq, Repr

/-- let embedUrls = video.embedUrls or [video.url or ""] (an empty array
is truthy in JS and is kept as is). -/
def effectiveEmbedUrls (video : PlayerVideo) : List String :=
  match video.embedUrls with
  | some l => l
  | none => [video.url]

/-- Outcome of one EnhancedVideoPlayer.loadVideo call. -/
inductive LoadResult where
  /-- type = direct takes the native video-element path and returns. -/
  | direct
  /-- the availability check returned false: the fallback message and a
  warning are shown and the method returns without any embed attempt. -/
  | blocked
  /-- the embed attempt sequence ran; final session and all srcs set. -/
  | ran (final : PlayerSession) (srcs : List String)
  deriving DecidableEq, Repr

/-- EnhancedVideoPlayer.loadVideo (line 3080): direct videos branch off,
an unavailable verdict blocks, otherwise the session starts on candidate
0 and the given viewer events drive it. -/
def loadVideoModel (video : PlayerVideo) (isAvailable : Bool)
    (events : List PlayerEvent) : LoadResult :=
  if video.type = "direct" then .direct
  else if isAvailable = false then .blocked
  else
    let (s0, out0) := startSession (effectiveEmbedUrls video)
    let (s1, out1) := runEvents s0 events
    .ran s1 (out0 ++ out1)

-- ==================== VideoAvailabilityChecker ====================

/-- Outcome of one fetch call: a response with an HTTP status, or a thrown
failure (network error or AbortSignal timeout). -/
inductive FetchOutcome where
  | ok (status : Nat)
  | thrown
  deriving DecidableEq, Repr

/-- VideoAvailabilityChecker.checkDirectUrl: a HEAD probe, falling back to
a GET probe; any response counts as available, both throwing resolves to
false. -/
def checkDirectUrl (head get : FetchOutcome) : Bool :=
  match head with
  | .ok _ => true
  | .thrown =>
    match get with
    | .ok _ => true
    | .thrown => false

/-- The per-platform thumbnail probes (checkYouTubeAvailability,
checkDriveAvailability, checkVimeoAvailability): status 200 means
available, a thrown fetch resolves to false. -/
def thumbnailProbe (outcome : FetchOutcome) : Bool :=
  match outcome with
  | .ok status => status == 200
  | .thrown => false

/-- VideoAvailabilityChecker.checkWithFallback: youtube, drive and vimeo
use their thumbnail probe; every other platform resolves to true. -/
def checkWithFallback (videoType : String) (probe : FetchOutcome) : Bool :=
  if videoType = "youtube" ∨ videoType = "drive" ∨ videoType = "vimeo" then
    thumbnailProbe probe
  else true

/-- VideoAvailabilityChecker.checkVideoAvailability: a cached verdict is
returned as is; direct videos and http urls use checkDirectUrl, the rest
checkWithFallback.  Every branch resolves to a boolean;
the try/catch wrapper would also resolve an exception to false. -/
def checkVideoAvailability (video : PlayerVideo) (cached : Option Bool)
    (head get probe : FetchOutcome) : Bool :=
  match cached with
  | some b => b
  | none =>
    if video.type = "direct" ∨ "http".isPrefixOf video.url then
      checkDirectUrl head get
    else checkWithFallback video.type probe

-- ==================== AirtableService ingestion ====================

/-- JS x || d for an optional string field: both a missing field and an
empty string are falsy. -/
def jsOrStr (v : Option String) (d : String) : String :=
  match v with
  | some s => if s = "" then d else s
  | none => d

/-- The fields object of an Airtable record (absent fields are none). -/
structure AirtableFields where
  videoId : Option String
  title : Option String
  description : Option String
  type : Option String
  duration : Option String
  url : Option String
  embedUrls : Option (List String)
  thumbnail : Option String
  createdAt : Option String
  status : Option String
  viewCount : Option Nat
  tags : Option (List String)
  category : Option String
  author : Option String
  deriving DecidableEq, Repr

/-- An Airtable record: server id plus fields. -/
structure AirtableRecord where
  id : String
  fields : AirtableFields
  deriving DecidableEq, Repr

/-- The record-to-video mapping inside AirtableService.getAllVideos (line
3360); nowIso stands for new Date().toISOString(), the createdAt default.
An array field (embedUrls, tags) is truthy in JS even when empty, so only
a missing array falls back to its default. -/
def mapRecord (nowIso : String) (record : AirtableRecord) : CatalogVideo :=
  { id := record.id,
    videoId := jsOrStr record.fields.videoId record.id,
    title := jsOrStr record.fields.title "",
    description := jsOrStr record.fields.description "",
    type := jsOrStr record.fields.type "other",
    duration := jsOrStr record.fields.duration "--:--",
    url := jsOrStr record.fields.url "",
    embedUrls := record.fields.embedUrls.getD [jsOrStr record.fields.url ""],
    createdAt := jsOrStr record.fields.createdAt nowIso,
    status := jsOrStr record.fields.status "active",
    viewCount := record.fields.viewCount.getD 0,
    tags := record.fields.tags.getD [],
    category := jsOrStr record.fields.category "general",
    author := jsOrStr record.fields.author "" }

/-- The pure core of AirtableService.getAllVideos: map the records, then
drop every video whose status is inactive. -/
def getAllVideosPure (nowIso : String) (records : List AirtableRecord) :
    List CatalogVideo :=
  (records.map (mapRecord nowIso)).filter fun video => video.status != "inactive"

-- ==================== Sorting ====================

/-- JS parseInt restricted to what duration strings exercise: skip spaces,
optional sign, then leading decimal digits; none models NaN. -/
def jsParseInt (s : String) : Option Int :=
  let l := s.data.dropWhile (· = ' ')
  let (sign, l) : Int × List Char :=
    match l with
    | c :: rest => if c = '-' then (-1, rest) else if c = '+' then (1, rest) else (1, l)
    | [] => (1, [])
  let digits := l.takeWhile Char.isDigit
  if digits.isEmpty then none
  else some (sign * (digits.foldl (fun acc c => acc * 10 + (c.toNat - 48)) 0 : Nat))

/-- EnhancedVideoManager.parseDuration (line 2937); none models NaN (any
non-numeric part poisons the sum, as NaN does in JS). -/
def parseDuration (duration : String) : Option Int :=
  if duration = "" ∨ duration = "--:--" then some 0
  else
    let parts := duration.splitOn ":"
    if parts.length = 3 then do
      let h ← jsParseInt (parts.getD 0 "")
      let m ← jsParseInt (parts.getD 1 "")
      let s ← jsParseInt (parts.getD 2 "")
      pure (h * 3600 + m * 60 + s)
    else if parts.length = 2 then do
      let m ← jsParseInt (parts.getD 0 "")
      let s ← jsParseInt (parts.getD 1 "")
      pure (m * 60 + s)
    else some 0

/-- The ambient platform functions the comparators close over:
String.prototype.localeCompare and Date parsing (none for an Invalid
Date, whose getTime is NaN). -/
structure SortEnv where
  lc : String → String → Int
  dv : String → Option Int

/-- A JS numeric comparator difference where either side may be NaN: the
ECMAScript sort treats a NaN comparator result as 0. -/
def nanDiff (a b : Option Int) : Int :=
  match a, b with
  | some x, some y => x - y
  | _, _ => 0

/-- The recently_played comparator of sortVideos. -/
def recentlyPlayedCmp (env : SortEnv) (recentlyPlayed : List RPEntry)
    (a b : CatalogVideo) : Int :=
  match getRecentlyPlayedData recentlyPlayed a.id,
        getRecentlyPlayedData recentlyPlayed b.id with
  | none, none => 0
  | none, some _ => 1
  | some _, none => -1
  | some ap, some bp => nanDiff (env.dv bp.playedAt) (env.dv ap.playedAt)

/-- VideoAnalytics.getPopularVideos: decorate with the analytics score,
sort descending, take the limit, undecorate. -/
def getPopularVideos (stats : List (String × VideoStats)) (now : ℚ)
    (videos : List CatalogVideo) (limit : Nat) : List CatalogVideo :=
  (((videos.map fun video =>
      (video, analyticsPopularityScore (getVideoStats stats video.id) now)).mergeSort
    fun p q => q.2 - p.2 ≤ 0).take limit).map (·.1)

/-- EnhancedVideoManager.sortVideos (line 2650).  Array.prototype.sort is
stable, modelled by a stable merge sort whose order relation is
comparator ≤ 0. -/
def sortVideos (env : SortEnv) (recentlyPlayed : List RPEntry)
    (stats : List (String × VideoStats)) (now : ℚ)
    (videos : List CatalogVideo) (sortOption : String) : List CatalogVideo :=
  let sorted := videos
  match sortOption with
  | "title_asc" => sorted.mergeSort fun a b => env.lc a.title b.title ≤ 0
  | "title_desc" => sorted.mergeSort fun a b => env.lc b.title a.title ≤ 0
  | "date_desc" => sorted.mergeSort fun a b =>
      nanDiff (env.dv b.createdAt) (env.dv a.createdAt) ≤ 0
  | "date_asc" => sorted.mergeSort fun a b =>
      nanDiff (env.dv a.createdAt) (env.dv b.createdAt) ≤ 0
  | "duration_asc" => sorted.mergeSort fun a b =>
      nanDiff (parseDuration a.duration) (parseDuration b.duration) ≤ 0
  | "duration_desc" => sorted.mergeSort fun a b =>
      nanDiff (parseDuration b.duration) (parseDuration a.duration) ≤ 0
  | "popularity" => sorted.mergeSort fun a b =>
      managerPopularityScore recentlyPlayed stats b now
        - managerPopularityScore recentlyPlayed stats a now ≤ 0
  | "recently_played" => sorted.mergeSort fun a b =>
      recentlyPlayedCmp env recentlyPlayed a b ≤ 0
  | "most_popular" => getPopularVideos stats now sorted sorted.length
  | _ => sorted

/-- EnhancedVideoManager.applyFiltersAndSearch (line 2608): platform
filter (skipped when the filter is falsy or all), then search (when the
term is truthy and long enough), then sort. -/
def applyFiltersAndSearch (env : SortEnv) (recentlyPlayed : List RPEntry)
    (stats : List (String × VideoStats)) (now : ℚ)
    (allVideos : List CatalogVideo) (platform searchTerm sortOption : String) :
    List CatalogVideo :=
  let results :=
    if platform ≠ "" ∧ platform ≠ "all" then
      allVideos.filter fun video => video.type == platform
    else allVideos
  let results :=
    if searchTerm ≠ "" ∧ MIN_SEARCH_LENGTH ≤ searchTerm.length then
      searchVideos results searchTerm
    else results
  sortVideos env recentlyPlayed stats now results sortOption

-- ==================== UniversalVideoParser ====================

/-- Does needle occur in hay (JS String.prototype.includes)? -/
def jsIncludesList (needle : List Char) : List Char → Bool
  | [] => needle.isPrefixOf []
  | l@(_ :: rest) => needle.isPrefixOf l || jsIncludesList needle rest

/-- JS String.prototype.includes. -/
def jsIncludes (s sub : String) : Bool := jsIncludesList sub.data s.data

/-- Scan a string left to right and return the first position where the
matcher succeeds, as the JS regex engine does for an unanchored pattern
(the position one past the end is also tried). -/
def scanFor {α : Type} (f : List Char → Option α) : List Char → Option α
  | [] => f []
  | l@(_ :: rest) =>
    match f l with
    | some r => some r
    | none => scanFor f rest

/-- Match, at the current position, one of the literal alternatives
followed by a non-empty maximal run of class characters (the capture).
Alternatives are tried in order; an alternative whose following capture
would be empty fails and the next one is tried, as regex backtracking
does. -/
def matchAltsAt (alts : List (List Char)) (cls : Char → Bool) (l : List Char) :
    Option (List Char) :=
  alts.findSome? fun alt =>
    if alt.isPrefixOf l then
      let cap := (l.drop alt.length).takeWhile cls
      if cap.isEmpty then none else some cap
    else none

/-- First match of pattern (?:alt1|alt2|...)(cls+) anywhere in the list,
returning the capture. -/
def searchCapture (alts : List (List Char)) (cls : Char → Bool)
    (l : List Char) : Option (List Char) :=
  scanFor (matchAltsAt alts cls) l

/-- Base64 alphabet. -/
def base64Chars : List Char :=
  "ABCDEFGHIJKLMNOPQRSTUVWXYZabcdefghijklmnopqrstuvwxyz0123456789+/".data

/-- One base64 output character. -/
def b64char (n : Nat) : Char := base64Chars.getD n '?'

/-- Base64-encode a byte list, with padding. -/
def b64encode : List Nat → List Char
  | [] => []
  | [b1] => [b64char (b1 / 4), b64char (b1 % 4 * 16), '=', '=']
  | [b1, b2] =>
      [b64char (b1 / 4), b64char (b1 % 4 * 16 + b2 / 16), b64char (b2 % 16 * 4), '=']
  | b1 :: b2 :: b3 :: rest =>
      b64char (b1 / 4) :: b64char (b1 % 4 * 16 + b2 / 16)
        :: b64char (b2 % 16 * 4 + b3 / 64) :: b64char (b3 % 64) :: b64encode rest

/-- window.btoa: fails (InvalidCharacterError) when a character is above
U+00FF, else base64 of the Latin-1 bytes. -/
def jsBtoa (s : String) : Except Unit String :=
  if s.data.all (fun c => c.toNat ≤ 255) then
    .ok ⟨b64encode (s.data.map (·.toNat))⟩
  else .error ()

/-- btoa(url).replace(/=/g, ''), the derived id used by the parsers of
platforms without a natural id. -/
def btoaId (url : String) : Except Unit String := do
  let b ← jsBtoa url
  pure ⟨b.data.filter (· ≠ '=')⟩

/-- UTF-8 bytes of one scalar value. -/
def utf8Bytes (c : Char) : List Nat :=
  let v := c.toNat
  if v < 0x80 then [v]
  else if v < 0x800 then [0xC0 + v / 0x40, 0x80 + v % 0x40]
  else if v < 0x10000 then
    [0xE0 + v / 0x1000, 0x80 + v / 0x40 % 0x40, 0x80 + v % 0x40]
  else
    [0xF0 + v / 0x40000, 0x80 + v / 0x1000 % 0x40, 0x80 + v / 0x40 % 0x40,
     0x80 + v % 0x40]

/-- Uppercase hex digit. -/
def hexDigitUpper (n : Nat) : Char :=
  if n < 10 then Char.ofNat (48 + n) else Char.ofNat (55 + n)

/-- Is the character left unescaped by encodeURIComponent? -/
def isUriUnreserved (c : Char) : Bool :=
  c.isAlphanum || c = '-' || c = '_' || c = '.' || c = '!' || c = '~'
    || c = '*' || c = Char.ofNat 39 || c = '(' || c = ')'

/-- JS encodeURIComponent (percent-encoding of UTF-8 bytes). -/
def encodeURIComponent (s : String) : String :=
  ⟨s.data.flatMap fun c =>
    if isUriUnreserved c then [c]
    else (utf8Bytes c).flatMap fun b =>
      ['%', hexDigitUpper (b / 16), hexDigitUpper (b % 16)]⟩

/-- The ambient window.location values the parsers read. -/
structure JSEnv where
  origin : String
  hostname : String

/-- The result object of a platform parser; originalUrl is added by
parseURL for the thirteen platform parsers and absent from parseUnknown's
result. -/
structure ParsedVideo where
  videoId : String
  type : String
  embedUrls : List String
  thumbnail : String
  title : String
  description : String
  originalUrl : Option String := none
  deriving DecidableEq, Repr

/-- The character class [^&?/#] of the YouTube id captures. -/
def ytCls (c : Char) : Bool := !(c = '&' || c = '?' || c = '/' || c = '#')

/-- The base64 placeholder thumbnail of YouTube playlists. -/
def ytPlaylistThumb : String :=
  "data:image/svg+xml;base64,PHN2ZyB3aWR0aD0iMTAwIiBoZWlnaHQ9IjcwIiB2aWV3Qm94PSIwIDAgMTAwIDcwIiBmaWxsPSJub25lIiB4bWxucz0iaHR0cDovL3d3dy53My5vcmcvMjAwMC9zdmciPjxyZWN0IHdpZHRoPSIxMDAiIGhlaWdodD0iNzAiIGZpbGw9IiNmMTBhMGIiLz48dGV4dCB4PSI1MCIgeT0iMzUiIGZvbnQtZmFtaWx5PSJBcmlhbCIgZm9udC1zaXplPSIxMCIgZmlsbD0id2hpdGUiIHRleHQtYW5jaG9yPSJtaWRkbGUiPllvdVR1YmUgUGxheWxpc3Q8L3RleHQ+PC9zdmc+"

/-- The result construction shared by the three YouTube patterns: a url
containing the substring playlist becomes a youtube_playlist entry. -/
def mkYouTubeResult (env : JSEnv) (url videoId : String) : ParsedVideo :=
  if jsIncludes url "playlist" then
    { videoId := "playlist-" ++ videoId, type := "youtube_playlist",
      embedUrls :=
        ["https://www.youtube.com/embed/videoseries?list=" ++ videoId
           ++ "&autoplay=1&modestbranding=1&rel=0&playsinline=1&origin="
           ++ encodeURIComponent env.origin,
         "https://www.youtube-nocookie.com/embed/videoseries?list=" ++ videoId
           ++ "&autoplay=1&modestbranding=1&rel=0&playsinline=1"],
      thumbnail := ytPlaylistThumb,
      title := "YouTube Playlist", description := "YouTube Playlist" }
  else
    { videoId := videoId, type := "youtube",
      embedUrls :=
        ["https://www.youtube.com/embed/" ++ videoId
           ++ "?autoplay=1&modestbranding=1&rel=0&playsinline=1&origin="
           ++ encodeURIComponent env.origin,
         "https://www.youtube-nocookie.com/embed/" ++ videoId
           ++ "?autoplay=1&modestbranding=1&rel=0&playsinline=1",
         "https://www.youtube.com/embed/" ++ videoId ++ "?autoplay=1&origin=*"],
      thumbnail := "https://img.youtube.com/vi/" ++ videoId ++ "/hqdefault.jpg",
      title := "YouTube Video", description := "YouTube Video" }

/-- UniversalVideoParser.parseYouTube: three patterns tried in order. -/
def parseYouTube (env : JSEnv) (url : String) : Except Unit (Option ParsedVideo) :=
  let l := url.data
  let alts1 := ["youtube.com/watch?v=".data, "youtu.be/".data,
                "youtube.com/embed/".data, "youtube.com/v/".data,
                "youtube.com/shorts/".data]
  match searchCapture alts1 ytCls l with
  | some cap => .ok (some (mkYouTubeResult env url ⟨cap⟩))
  | none =>
    match searchCapture ["youtube.com/playlist?list=".data] ytCls l with
    | some cap => .ok (some (mkYouTubeResult env url ⟨cap⟩))
    | none =>
      match searchCapture ["music.youtube.com/watch?v=".data] ytCls l with
      | some cap => .ok (some (mkYouTubeResult env url ⟨cap⟩))
      | none => .ok none

/-- UniversalVideoParser.parseGoogleDrive: four patterns tried in order. -/
def parseGoogleDrive (_env : JSEnv) (url : String) :
    Except Unit (Option ParsedVideo) :=
  let l := url.data
  let mk : String → Option ParsedVideo := fun fileId =>
    some { videoId := fileId, type := "drive",
           embedUrls :=
             ["https://drive.google.com/file/d/" ++ fileId ++ "/preview",
              "https://drive.google.com/file/d/" ++ fileId ++ "/view"],
           thumbnail := "https://drive.google.com/thumbnail?id=" ++ fileId ++ "&sz=w400",
           title := "Google Drive Video", description := "Google Drive Video" }
  match searchCapture ["drive.google.com/file/d/".data] (· ≠ '/') l with
  | some cap => .ok (mk ⟨cap⟩)
  | none =>
    match searchCapture ["drive.google.com/open?id=".data] (· ≠ '&') l with
    | some cap => .ok (mk ⟨cap⟩)
    | none =>
      match searchCapture ["drive.google.com/uc?id=".data] (· ≠ '&') l with
      | some cap => .ok (mk ⟨cap⟩)
      | none =>
        match searchCapture ["drive.google.com/uc?export=download&id=".data]
            (· ≠ '&') l with
        | some cap => .ok (mk ⟨cap⟩)
        | none => .ok none

/-- UniversalVideoParser.parseVimeo: two digit-capture patterns. -/
def parseVimeo (_env : JSEnv) (url : String) : Except Unit (Option ParsedVideo) :=
  let l := url.data
  let mk : String → Option ParsedVideo := fun videoId =>
    some { videoId := videoId, type := "vimeo",
           embedUrls :=
             ["https://player.vimeo.com/video/" ++ videoId
                ++ "?autoplay=1&title=0&byline=0&portrait=0&dnt=1",
              "https://vimeo.com/" ++ videoId],
           thumbnail := "https://vumbnail.com/" ++ videoId ++ ".jpg",
           title := "Vimeo Video", description := "Vimeo Video" }
  match searchCapture ["vimeo.com/".data] Char.isDigit l with
  | some cap => .ok (mk ⟨cap⟩)
  | none =>
    match searchCapture ["player.vimeo.com/video/".data] Char.isDigit l with
    | some cap => .ok (mk ⟨cap⟩)
    | none => .ok none

/-- UniversalVideoParser.parseDailymotion: three patterns. -/
def parseDailymotion (_env : JSEnv) (url : String) :
    Except Unit (Option ParsedVideo) :=
  let l := url.data
  let mk : String → Option ParsedVideo := fun videoId =>
    some { videoId := videoId, type := "dailymotion",
           embedUrls :=
             ["https://www.dailymotion.com/embed/video/" ++ videoId ++ "?autoplay=1",
              "https://dailymotion.com/embed/video/" ++ videoId],
           thumbnail := "https://www.dailymotion.com/thumbnail/video/" ++ videoId,
           title := "Dailymotion Video", description := "Dailymotion Video" }
  match searchCapture ["dailymotion.com/video/".data] (· ≠ '_') l with
  | some cap => .ok (mk ⟨cap⟩)
  | none =>
    match searchCapture ["dailymotion.com/embed/video/".data] (· ≠ '?') l with
    | some cap => .ok (mk ⟨cap⟩)
    | none =>
      match searchCapture ["dai.ly/".data] (· ≠ '?') l with
      | some cap => .ok (mk ⟨cap⟩)
      | none => .ok none

/-- UniversalVideoParser.parseFacebook: substring test, derived id via
btoa, embeds via the plugin endpoint. -/
def parseFacebook (_env : JSEnv) (url : String) :
    Except Unit (Option ParsedVideo) :=
  if jsIncludes url "facebook.com" || jsIncludes url "fb.watch" then do
    let encodedUrl := encodeURIComponent url
    let vid ← btoaId url
    pure (some
      { videoId := vid, type := "facebook",
        embedUrls :=
          ["https://www.facebook.com/plugins/video.php?href=" ++ encodedUrl
             ++ "&show_text=0&autoplay=1&width=500",
           "https://www.facebook.com/plugins/video.php?href=" ++ encodedUrl
             ++ "&show_text=0&autoplay=1"],
        thumbnail := "", title := "Facebook Video", description := "Facebook Video" })
  else .ok none

/-- The character class [^/?] of the Instagram code capture. -/
def igCls (c : Char) : Bool := !(c = '/' || c = '?')

/-- Matcher of the second Instagram pattern at one position:
instagram.com/p/ then a non-empty [^/?]+ capture then the literal /embed;
the capture is the maximal class run since / is outside the class. -/
def igEmbedAt (l : List Char) : Option (List Char) :=
  if "instagram.com/p/".data.isPrefixOf l then
    let rest := l.drop "instagram.com/p/".length
    let cap := rest.takeWhile igCls
    if cap.isEmpty then none
    else if "/embed".data.isPrefixOf (rest.drop cap.length) then some cap
    else none
  else none

/-- UniversalVideoParser.parseInstagram: two patterns. -/
def parseInstagram (_env : JSEnv) (url : String) :
    Except Unit (Option ParsedVideo) :=
  let l := url.data
  let mk : String → Option ParsedVideo := fun code =>
    some { videoId := code, type := "instagram",
           embedUrls :=
             ["https://www.instagram.com/p/" ++ code ++ "/embed/",
              "https://www.instagram.com/reel/" ++ code ++ "/embed/",
              "https://www.instagram.com/tv/" ++ code ++ "/embed/"],
           thumbnail := "", title := "Instagram Video",
           description := "Instagram Video" }
  match searchCapture ["instagram.com/p/".data, "instagram.com/reel/".data,
      "instagram.com/tv/".data] igCls l with
  | some cap => .ok (mk ⟨cap⟩)
  | none =>
    match scanFor igEmbedAt l with
    | some cap => .ok (mk ⟨cap⟩)
    | none => .ok none

/-- UniversalVideoParser.parseTikTok: substring test, id from the last
path segment before any query string. -/
def parseTikTok (_env : JSEnv) (url : String) :
    Except Unit (Option ParsedVideo) :=
  if jsIncludes url "tiktok.com" then
    let videoId := (((url.splitOn "/").getLastD "").splitOn "?").headD ""
    .ok (some
      { videoId := videoId, type := "tiktok",
        embedUrls :=
          ["https://www.tiktok.com/embed/v2/" ++ videoId,
           "https://www.tiktok.com/embed/" ++ videoId],
        thumbnail := "", title := "TikTok Video", description := "TikTok Video" })
  else .ok none

/-- UniversalVideoParser.parseTwitter: substring test, derived id via
btoa, third-party frame first. -/
def parseTwitter (_env : JSEnv) (url : String) :
    Except Unit (Option ParsedVideo) :=
  if jsIncludes url "twitter.com" || jsIncludes url "x.com" then do
    let encodedUrl := encodeURIComponent url
    let vid ← btoaId url
    pure (some
      { videoId := vid, type := "twitter",
        embedUrls :=
          ["https://twitframe.com/show?url=" ++ encodedUrl,
           "https://platform.twitter.com/embed/Tweet.html?url=" ++ encodedUrl],
        thumbnail := "", title := "Twitter/X Video",
        description := "Twitter/X Video" })
  else .ok none

/-- JS regex word character \w. -/
def isWordChar (c : Char) : Bool := c.isAlphanum || c = '_'

/-- Matcher of the Twitch clip pattern at one position: twitch.tv/ then a
non-empty \w+ run then /clip/ then a non-empty [^?]+ capture.  Both runs
are maximal: / is neither a word character nor in the class. -/
def twitchClipAt (l : List Char) : Option (List Char) :=
  if "twitch.tv/".data.isPrefixOf l then
    let rest := l.drop "twitch.tv/".length
    let w := rest.takeWhile isWordChar
    if w.isEmpty then none
    else
      let rest2 := rest.drop w.length
      if "/clip/".data.isPrefixOf rest2 then
        let cap := (rest2.drop "/clip/".length).takeWhile (· ≠ '?')
        if cap.isEmpty then none else some cap
      else none
  else none

/-- UniversalVideoParser.parseTwitch: the videos pattern, then the clip
pattern. -/
def parseTwitch (env : JSEnv) (url : String) : Except Unit (Option ParsedVideo) :=
  let l := url.data
  match searchCapture ["twitch.tv/videos/".data] Char.isDigit l with
  | some cap =>
    let videoId : String := ⟨cap⟩
    .ok (some
      { videoId := videoId, type := "twitch",
        embedUrls :=
          ["https://player.twitch.tv/?video=" ++ videoId ++ "&parent="
             ++ env.hostname ++ "&autoplay=true",
           "https://player.twitch.tv/?video=" ++ videoId
             ++ "&parent=localhost&autoplay=true"],
        thumbnail := "", title := "Twitch Video", description := "Twitch Video" })
  | none =>
    match scanFor twitchClipAt l with
    | some cap =>
      let clipId : String := ⟨cap⟩
      .ok (some
        { videoId := clipId, type := "twitch",
          embedUrls :=
            ["https://clips.twitch.tv/embed?clip=" ++ clipId ++ "&parent="
               ++ env.hostname ++ "&autoplay=true",
             "https://clips.twitch.tv/embed?clip=" ++ clipId
               ++ "&parent=localhost&autoplay=true"],
          thumbnail := "", title := "Twitch Clip", description := "Twitch Clip" })
    | none => .ok none

/-- UniversalVideoParser.parseStreamable. -/
def parseStreamable (_env : JSEnv) (url : String) :
    Except Unit (Option ParsedVideo) :=
  match searchCapture ["streamable.com/".data] (· ≠ '?') url.data with
  | some cap =>
    let videoId : String := ⟨cap⟩
    .ok (some
      { videoId := videoId, type := "streamable",
        embedUrls :=
          ["https://streamable.com/e/" ++ videoId ++ "?autoplay=1",
           "https://streamable.com/o/" ++ videoId],
        thumbnail := "", title := "Streamable Video",
        description := "Streamable Video" })
  | none => .ok none

/-- Matcher of the Dropbox pattern at one position: dropbox.com/s/ then a
non-empty [^/]+ capture then / then a non-empty [^?]+ capture; each run is
maximal since its terminator is outside its class. -/
def dropboxAt (l : List Char) : Option (List Char × List Char) :=
  if "dropbox.com/s/".data.isPrefixOf l then
    let rest := l.drop "dropbox.com/s/".length
    let cap1 := rest.takeWhile (· ≠ '/')
    if cap1.isEmpty then none
    else
      let rest2 := rest.drop cap1.length
      match rest2 with
      | '/' :: rest3 =>
        let cap2 := rest3.takeWhile (· ≠ '?')
        if cap2.isEmpty then none else some (cap1, cap2)
      | _ => none
  else none

/-- UniversalVideoParser.parseDropbox. -/
def parseDropbox (_env : JSEnv) (url : String) :
    Except Unit (Option ParsedVideo) :=
  match scanFor dropboxAt url.data with
  | some (cap1, cap2) =>
    let keyId : String := ⟨cap1⟩
    let name : String := ⟨cap2⟩
    .ok (some
      { videoId := keyId, type := "dropbox",
        embedUrls :=
          ["https://www.dropbox.com/s/" ++ keyId ++ "/" ++ name ++ "?raw=1",
           "https://dl.dropboxusercontent.com/s/" ++ keyId ++ "/" ++ name],
        thumbnail := "", title := "Dropbox Video", description := "Dropbox Video" })
  | none => .ok none

/-- UniversalVideoParser.parseGooglePhotos. -/
def parseGooglePhotos (_env : JSEnv) (url : String) :
    Except Unit (Option ParsedVideo) :=
  if jsIncludes url "photos.app.goo.gl" || jsIncludes url "photos.google.com" then do
    let vid ← btoaId url
    pure (some
      { videoId := vid, type := "photos", embedUrls := [url],
        thumbnail := "", title := "Google Photos",
        description := "Google Photos" })
  else .ok none

/-- The recognized direct-file extensions. -/
def videoExtensions : List String :=
  [".mp4", ".webm", ".ogg", ".mov", ".mkv", ".flv", ".avi"]

/-- UniversalVideoParser.parseDirectVideo: extension test on the
lowercased url. -/
def parseDirectVideo (_env : JSEnv) (url : String) :
    Except Unit (Option ParsedVideo) :=
  if videoExtensions.any (fun ext => jsIncludes (jsToLower url) ext) then do
    let vid ← btoaId url
    pure (some
      { videoId := vid, type := "direct", embedUrls := [url],
        thumbnail := "", title := "Direct Video",
        description := "Direct Video File" })
  else .ok none

/-- UniversalVideoParser.parseUnknown: the fallback result (note: no
originalUrl is attached to it in parseURL). -/
def parseUnknown (url : String) : Except Unit ParsedVideo := do
  let vid ← btoaId url
  pure { videoId := vid, type := "other", embedUrls := [url],
         thumbnail := "", title := "Custom Video",
         description := "Video from unknown source" }

/-- The thirteen platform parsers, in the order parseURL tries them. -/
def parserChain : List (JSEnv → String → Except Unit (Option ParsedVideo)) :=
  [parseYouTube, parseGoogleDrive, parseVimeo, parseDailymotion, parseFacebook,
   parseInstagram, parseTikTok, parseTwitter, parseTwitch, parseStreamable,
   parseDropbox, parseGooglePhotos, parseDirectVideo]

/-- Try the platform parsers in order, stopping at the first match; a
thrown error propagates. -/
def tryParsers (env : JSEnv) (url : String) :
    List (JSEnv → String → Except Unit (Option ParsedVideo)) →
    Except Unit (Option ParsedVideo)
  | [] => .ok none
  | p :: rest =>
    match p env url with
    | .error e => .error e
    | .ok (some r) => .ok (some r)
    | .ok none => tryParsers env url rest

/-- UniversalVideoParser.parseURL (line 2068): a falsy url yields null; a
platform parser result gets originalUrl attached; otherwise the
parseUnknown fallback is returned as is. -/
def parseURL (env : JSEnv) (url : String) : Except Unit (Option ParsedVideo) :=
  if url = "" then .ok none
  else
    match tryParsers env url parserChain with
    | .error e => .error e
    | .ok (some result) => .ok (some { result with originalUrl := some url })
    | .ok none =>
      match parseUnknown url with
      | .error e => .error e
      | .ok u => .ok (some u)

-- ==================== Playback engine lemmas ====================

/-- Unfolding of runEvents on an event cons. -/
lemma runEvents_cons (s : PlayerSession) (e : PlayerEvent) (rest : List PlayerEvent) :
    runEvents s (e :: rest) =
      ((runEvents (sessionStep s e).1 rest).1,
       (sessionStep s e).2 ++ (runEvents (sessionStep s e).1 rest).2) := rfl

/-- Driving an attempting session with k explicit errors followed by a
success signal walks the remaining candidates one by one and ends
Loaded. -/
lemma runEvents_replicate_error_load (k : Nat) :
    ∀ (urls : List String) (i : Nat) (b : Bool), i + 1 + k = urls.length →
    runEvents ⟨urls, i, b, .attempting⟩ (List.replicate k .error ++ [.load]) =
      (⟨urls, i + k, false, .loaded⟩, urls.drop (i + 1)) := by
  induction k with
  | zero =>
    intro urls i b h
    have hd : urls.drop (i + 1) = [] := List.drop_eq_nil_of_le (by omega)
    simp [runEvents, sessionStep, hd]
  | succ k ih =>
    intro urls i b h
    have hlt : i + 1 < urls.length := by omega
    have hg : urls.getD (i + 1) "" = urls[i + 1] := by
      simp [List.getD_eq_getElem?_getD, List.getElem?_eq_getElem hlt]
    have hstep' :
        sessionStep ⟨urls, i, b, .attempting⟩ .error =
          (⟨urls, i + 1, false, .attempting⟩, [urls[i + 1]]) := by
      cases b <;> simp [sessionStep, handleEmbedError, hlt, hg]
    have hrest := ih urls (i + 1) false (by omega)
    have harith : i + 1 + k = i + (k + 1) := by omega
    rw [harith] at hrest
    simp only [List.replicate_succ, List.cons_append]
    rw [runEvents_cons, hstep']
    simp only [hrest]
    rw [List.drop_eq_getElem_cons hlt]
    simp

/-- Driving an attempting session with k+1 explicit errors exhausts the
remaining candidates and ends with the fallback message shown. -/
lemma runEvents_replicate_error_fail (k : Nat) :
    ∀ (urls : List String) (i : Nat) (b : Bool), i + 1 + k = urls.length →
    runEvents ⟨urls, i, b, .attempting⟩ (List.replicate (k + 1) .error) =
      (⟨urls, i + 1 + k, false, .failedShown⟩, urls.drop (i + 1)) := by
  induction k with
  | zero =>
    intro urls i b h
    have hnlt : ¬ i + 1 < urls.length := by omega
    have hd : urls.drop (i + 1) = [] := List.drop_eq_nil_of_le (by omega)
    simp [runEvents, sessionStep, handleEmbedError, hnlt, hd]
  | succ k ih =>
    intro urls i b h
    have hlt : i + 1 < urls.length := by omega
    have hg : urls.getD (i + 1) "" = urls[i + 1] := by
      simp [List.getD_eq_getElem?_getD, List.getElem?_eq_getElem hlt]
    have hstep' :
        sessionStep ⟨urls, i, b, .attempting⟩ .error =
          (⟨urls, i + 1, false, .attempting⟩, [urls[i + 1]]) := by
      cases b <;> simp [sessionStep, handleEmbedError, hlt, hg]
    have hrest := ih urls (i + 1) false (by omega)
    have harith : i + 1 + 1 + k = i + 1 + (k + 1) := by omega
    rw [harith] at hrest
    rw [show List.replicate (k + 1 + 1) PlayerEvent.error
          = .error :: List.replicate (k + 1) .error from rfl]
    rw [runEvents_cons, hstep']
    simp only [hrest]
    rw [List.drop_eq_getElem_cons hlt]
    simp

/-- C1: for a non-direct entry with N >= 1 embed candidates, explicit
errors on candidates 0..N-2 followed by a success on candidate N-1 make
the engine assign each of the N candidates to the player exactly once, in
list order, ending Loaded; explicit errors on all N candidates assign
each exactly once, in order, ending with the fallback message (Failed). -/
theorem fallback_attempts_candidates_in_order (video : PlayerVideo) (N : Nat)
    (hN : 1 ≤ N) (hlen : (effectiveEmbedUrls video).length = N)
    (hT : video.type ≠ "direct") :
    loadVideoModel video true (List.replicate (N - 1) .error ++ [.load]) =
      .ran ⟨effectiveEmbedUrls video, N - 1, false, .loaded⟩ (effectiveEmbedUrls video)
    ∧ loadVideoModel video true (List.replicate N .error) =
      .ran ⟨effectiveEmbedUrls video, N, false, .failedShown⟩ (effectiveEmbedUrls video) := by
  rcases hu : effectiveEmbedUrls video with _ | ⟨u, rest⟩
  · rw [hu] at hlen
    simp at hlen
    omega
  have hlen' : rest.length + 1 = N := by
    rw [hu] at hlen
    simpa using hlen
  constructor
  · have hrun := runEvents_replicate_error_load (N - 1) (u :: rest) 0 true (by simp; omega)
    have heq : 0 + (N - 1) = N - 1 := by omega
    rw [heq] at hrun
    simp only [loadVideoModel, if_neg hT, hu, startSession]
    simp [hrun]
  · have hrep : List.replicate N PlayerEvent.error
        = List.replicate ((N - 1) + 1) PlayerEvent.error := by
      rw [Nat.sub_add_cancel hN]
    have hrun := runEvents_replicate_error_fail (N - 1) (u :: rest) 0 true (by simp; omega)
    have heq : 0 + 1 + (N - 1) = N := by omega
    rw [heq] at hrun
    simp only [loadVideoModel, if_neg hT, hu, startSession, hrep]
    simp [hrun]

/-- Witness for C1 at a concrete two-candidate entry. -/
theorem fallback_attempts_candidates_in_order_witness :
    loadVideoModel ⟨"v", "youtube", "u", some ["a", "b"]⟩ true
        (List.replicate 1 .error ++ [.load]) =
      .ran ⟨["a", "b"], 1, false, .loaded⟩ ["a", "b"]
    ∧ loadVideoModel ⟨"v", "youtube", "u", some ["a", "b"]⟩ true
        (List.replicate 2 .error) =
      .ran ⟨["a", "b"], 2, false, .failedShown⟩ ["a", "b"] :=
  fallback_attempts_candidates_in_order ⟨"v", "youtube", "u", some ["a", "b"]⟩ 2
    (by decide) (by decide) (by decide)

/-- C2 counterexample: with two candidates and no viewer signal, the
stall timeout does not advance to the second candidate as an explicit
error would; it shows the fallback (Failed) message while only the first
candidate was ever attempted. -/
theorem stall_timeout_skips_remaining_candidates :
    loadVideoModel ⟨"v", "youtube", "u", some ["a", "b"]⟩ true [.timerFire] =
      .ran ⟨["a", "b"], 0, false, .failedShown⟩ ["a"]
    ∧ (["a"] : List String) ≠ ["a", "b"] := by
  constructor
  · rfl
  · decide

/-- C2 amended: the stall timer is armed once, by loadVideo; if it fires
before any signal the session immediately shows the fallback message,
with no further candidate attempted at that point; every event leaves the
timer disarmed, so no later attempt has a stall timer. -/
theorem stall_timeout_behavior :
    (∀ (urls : List String) (i : Nat) (st : SessionState),
      sessionStep ⟨urls, i, true, st⟩ .timerFire = (⟨urls, i, false, .failedShown⟩, []))
    ∧ (∀ (s : PlayerSession) (e : PlayerEvent), (sessionStep s e).1.timerActive = false)
    ∧ (∀ video : PlayerVideo, video.type ≠ "direct" →
        loadVideoModel video true [.timerFire] =
          .ran ⟨effectiveEmbedUrls video, 0, false, .failedShown⟩
            [(effectiveEmbedUrls video).headD ""]) := by
  refine ⟨?_, ?_, ?_⟩
  · intro urls i st
    simp [sessionStep]
  · intro s e
    cases e with
    | load => simp [sessionStep]
    | error =>
      simp only [sessionStep, handleEmbedError]
      split <;> rfl
    | timerFire =>
      by_cases hb : s.timerActive
      · simp [sessionStep, hb]
      · simp [sessionStep, hb]
  · intro video hT
    simp [loadVideoModel, hT, startSession, runEvents, sessionStep]

/-- Witness for C2's amended statement at a concrete entry. -/
theorem stall_timeout_behavior_witness :
    loadVideoModel ⟨"v", "youtube", "u", some ["a", "b"]⟩ true [.timerFire] =
      .ran ⟨["a", "b"], 0, false, .failedShown⟩ ["a"] :=
  stall_timeout_behavior.2.2 ⟨"v", "youtube", "u", some ["a", "b"]⟩ (by decide)

/-- C3 counterexample: for a concrete non-direct entry, a false
availability verdict makes loadVideo return without attempting any embed
candidate (blocked), whereas a true verdict starts the attempt on
candidate 0; the probe result does block playback. -/
theorem availability_false_blocks_playback :
    loadVideoModel ⟨"v", "youtube", "u", some ["a", "b"]⟩ false [] = .blocked
    ∧ loadVideoModel ⟨"v", "youtube", "u", some ["a", "b"]⟩ true [] =
        .ran ⟨["a", "b"], 0, true, .attempting⟩ ["a"]
    ∧ LoadResult.blocked ≠ .ran ⟨["a", "b"], 0, true, .attempting⟩ ["a"] := by
  refine ⟨rfl, rfl, by decide⟩

/-- C3 amended: the availability probe itself never throws - every
thrown fetch resolves to a boolean (false for the probed platforms, true
for unprobed ones) - but its verdict is not non-blocking: a false
verdict makes loadVideo return without attempting any candidate, and
only a true verdict proceeds to attempt the entry's candidates. -/
theorem availability_check_behavior :
    (∀ video : PlayerVideo,
      (video.type = "youtube" ∨ video.type = "drive" ∨ video.type = "vimeo") →
      ¬ "http".isPrefixOf video.url →
      checkVideoAvailability video none .thrown .thrown .thrown = false)
    ∧ (∀ video : PlayerVideo, video.type ≠ "direct" → ¬ "http".isPrefixOf video.url →
        checkVideoAvailability video none .thrown .thrown .thrown
          = checkWithFallback video.type .thrown)
    ∧ (∀ (video : PlayerVideo) (events : List PlayerEvent), video.type ≠ "direct" →
        loadVideoModel video false events = .blocked)
    ∧ (∀ (video : PlayerVideo) (events : List PlayerEvent), video.type ≠ "direct" →
        ∃ (final : PlayerSession) (rest : List String),
          loadVideoModel video true events =
            .ran final ((effectiveEmbedUrls video).headD "" :: rest)) := by
  refine ⟨?_, ?_, ?_, ?_⟩
  · intro video htype hurl
    have hdir : video.type ≠ "direct" := by
      rcases htype with h | h | h <;> simp [h]
    rcases htype with h | h | h <;>
      simp [checkVideoAvailability, checkWithFallback, thumbnailProbe, h, hurl, hdir]
  · intro video htype hurl
    simp [checkVideoAvailability, htype, hurl]
  · intro video events hT
    simp [loadVideoModel, hT]
  · intro video events hT
    refine ⟨(runEvents (startSession (effectiveEmbedUrls video)).1 events).1,
      (runEvents (startSession (effectiveEmbedUrls video)).1 events).2, ?_⟩
    simp [loadVideoModel, hT, startSession]

/-- Witness for C3's amended statement at a concrete youtube entry. -/
theorem availability_check_behavior_witness :
    checkVideoAvailability ⟨"v", "youtube", "", some ["a"]⟩ none .thrown .thrown .thrown
      = false
    ∧ loadVideoModel ⟨"v", "youtube", "", some ["a"]⟩ false [] = .blocked :=
  ⟨availability_check_behavior.1 ⟨"v", "youtube", "", some ["a"]⟩ (by decide) (by decide),
   availability_check_behavior.2.2.1 ⟨"v", "youtube", "", some ["a"]⟩ [] (by decide)⟩

/-- C4: playing the same entry twice in a row leaves its stored play
count at 1, not 2: addToRecentlyPlayed splices the old record out before
looking its count up, so the lookup always misses and the count restarts
at 0 + 1.  The capacity, ordering and move-to-front behaviour hold, but
the increment the code's own lookup-then-add-one expression intends is
lost. -/
theorem addToRecentlyPlayed_resets_play_count :
    addToRecentlyPlayed (addToRecentlyPlayed [] "v1" "t0") "v1" "t1" =
      [{ id := "v1", playedAt := "t1", playCount := 1 }]
    ∧ ({ id := "v1", playedAt := "t1", playCount := 1 } : RPEntry).playCount ≠ 2 := by
  refine ⟨rfl, by decide⟩

-- ==================== Popularity score (C5) ====================

/-- A concrete catalog entry for the popularity counterexample. -/
def c5Video : CatalogVideo :=
  { id := "v", videoId := "v", title := "", description := "", type := "youtube",
    duration := "--:--", url := "", embedUrls := [], createdAt := "",
    status := "active", viewCount := 0, tags := [], category := "", author := "" }

/-- Stats map where the entry has one tracked completion event. -/
def c5Stats : List (String × VideoStats) :=
  [("v", { playCount := 0, completionCount := 1, errorCount := 0, loadCount := 0,
           seekCount := 0, totalWatchTime := 0, lastPlayed := none })]

/-- C5 counterexample: a video with viewCount 0, absent from the
recently-played ledger but with one tracked completion, scores 10 (from
the analytics half-score) while the claimed formula
viewCount + 10 * recentPlayCount gives 0. -/
theorem popularity_score_not_claimed_formula :
    managerPopularityScore [] c5Stats c5Video 0 = 10
    ∧ specPopularityScore [] c5Video = 0
    ∧ (10 : ℚ) ≠ 0 := by
  refine ⟨?_, ?_, by norm_num⟩ <;>
    norm_num [managerPopularityScore, specPopularityScore, getRecentlyPlayedData,
      getVideoStats, analyticsPopularityScore, defaultStats, c5Stats, c5Video,
      List.find?]

/-- C5 amended: the score used for the popularity sort and the popular
badge is viewCount + 10 * recentPlayCount + analyticsScore / 2, where
analyticsScore is the VideoAnalytics popularity score of the entry; it
collapses to the claimed viewCount + 10 * recentPlayCount exactly when
the analytics contribution is zero (e.g. no tracked events). -/
theorem popularity_score_formula (recentlyPlayed : List RPEntry)
    (stats : List (String × VideoStats)) (video : CatalogVideo) (now : ℚ) :
    managerPopularityScore recentlyPlayed stats video now =
      specPopularityScore recentlyPlayed video
        + analyticsPopularityScore (getVideoStats stats video.id) now / 2
    ∧ (analyticsPopularityScore (getVideoStats stats video.id) now = 0 →
        managerPopularityScore recentlyPlayed stats video now =
          specPopularityScore recentlyPlayed video) := by
  constructor
  · simp only [managerPopularityScore, specPopularityScore]
    ring
  · intro h0
    simp only [managerPopularityScore, specPopularityScore, h0]
    ring

/-- Witness for C5's amended statement: with no tracked events the score
is exactly the claimed formula. -/
theorem popularity_score_formula_witness :
    managerPopularityScore [] [] c5Video 0 = specPopularityScore [] c5Video :=
  (popularity_score_formula [] [] c5Video 0).2
    (by norm_num [analyticsPopularityScore, getVideoStats, defaultStats, List.find?])

-- ==================== Edit distance lemmas (C6) ====================

/-- Peel the head off a mapped range. -/
lemma range_map_head {α : Type} (n : Nat) (f : Nat → α) :
    (List.range (n + 1)).map f = f 0 :: (List.range n).map (fun t => f (t + 1)) := by
  rw [List.range_succ_eq_map, List.map_cons, List.map_map]
  rfl

/-- On equal strings, one DP row step turns the distance profile of row i
into the distance profile of row i+1: entry j+1+t of the new row is
dist (i+1) (j+1+t). -/
lemma levRowAux_self (l : List Char) (i : Nat) (c1 : Char) (hc1 : l[i]? = some c1) :
    ∀ (s2t : List Char) (j : Nat), s2t = l.drop j →
      levRowAux c1 s2t ((List.range (s2t.length + 1)).map fun t => Nat.dist i (j + t))
          (Nat.dist (i + 1) j) =
        (List.range s2t.length).map fun t => Nat.dist (i + 1) (j + 1 + t) := by
  intro s2t
  induction s2t with
  | nil => intro j hj; simp [levRowAux]
  | cons c2 rest ih =>
    intro j hj
    have hc2 : l[j]? = some c2 := by
      have h0 : (l.drop j)[0]? = some c2 := by rw [← hj]; simp
      rwa [List.getElem?_drop] at h0
    have hrest : rest = l.drop (j + 1) := by
      rw [← List.tail_drop, ← hj]
      rfl
    have hshift : (fun t => Nat.dist i (j + (t + 1))) = fun t => Nat.dist i (j + 1 + t) := by
      funext t
      congr 1
      omega
    have hprev : (List.range (rest.length + 1 + 1)).map (fun t => Nat.dist i (j + t))
        = Nat.dist i j
          :: (List.range (rest.length + 1)).map (fun t => Nat.dist i (j + 1 + t)) := by
      rw [range_map_head (rest.length + 1) (fun t => Nat.dist i (j + t)), hshift]
      norm_num
    have habove :
        ((List.range (rest.length + 1)).map (fun t => Nat.dist i (j + 1 + t))).headD 0
          = Nat.dist i (j + 1) := by
      rw [range_map_head (rest.length) (fun t => Nat.dist i (j + 1 + t))]
      simp
    have hnew : (if c1 = c2 then Nat.dist i j
          else min (min (Nat.dist i j) (Nat.dist (i + 1) j)) (Nat.dist i (j + 1)) + 1)
        = Nat.dist (i + 1) (j + 1) := by
      by_cases hc : c1 = c2
      · rw [if_pos hc, Nat.dist_succ_succ]
      · have hij : i ≠ j := by
          intro he
          rw [he, hc2] at hc1
          exact hc (Option.some.inj hc1).symm
        rw [if_neg hc]
        simp only [Nat.dist]
        omega
    have hlen : (c2 :: rest).length = rest.length + 1 := rfl
    rw [hlen, hprev]
    simp only [levRowAux, List.headD_cons, List.tail_cons, habove, hnew]
    rw [ih (j + 1) hrest]
    rw [range_map_head (rest.length) (fun t => Nat.dist (i + 1) (j + 1 + t))]
    congr 1
    apply List.map_congr_left
    intro a _
    congr 1
    omega

/-- On equal strings, folding the remaining rows from the distance
profile of row i ends in the distance profile of the last row. -/
lemma levRows_self (l : List Char) :
    ∀ (s1t : List Char) (i : Nat), s1t = l.drop i → i ≤ l.length →
      levRows l s1t i ((List.range (l.length + 1)).map fun t => Nat.dist i t) =
        (List.range (l.length + 1)).map fun t => Nat.dist l.length t := by
  intro s1t
  induction s1t with
  | nil =>
    intro i hi hle
    have : l.length ≤ i := by
      have := congrArg List.length hi
      simp at this
      omega
    have hieq : i = l.length := by omega
    rw [hieq]
    rfl
  | cons c1 rest ih =>
    intro i hi hle
    have hc1 : l[i]? = some c1 := by
      have h0 : (l.drop i)[0]? = some c1 := by rw [← hi]; simp
      rwa [List.getElem?_drop] at h0
    have hlt : i < l.length := by
      rcases List.getElem?_eq_some_iff.mp hc1 with ⟨h, _⟩
      exact h
    have hrest : rest = l.drop (i + 1) := by
      rw [← List.tail_drop, ← hi]
      rfl
    have hrow := levRowAux_self l i c1 hc1 l 0 (by rfl)
    have hzero : (fun t => Nat.dist i (0 + t)) = fun t => Nat.dist i t := by
      funext t
      congr 1
      omega
    have hzero2 : (fun t => Nat.dist (i + 1) (0 + 1 + t)) = fun t => Nat.dist (i + 1) (1 + t) := by
      funext t
      congr 1
    rw [hzero, hzero2] at hrow
    have hd0 : Nat.dist (i + 1) 0 = i + 1 := by
      simp [Nat.dist]
    simp only [levRows]
    rw [show Nat.dist (i + 1) 0 = i + 1 from hd0] at hrow
    have hnewrow : (i + 1) :: levRowAux c1 l
          ((List.range (l.length + 1)).map fun t => Nat.dist i t) (i + 1)
        = (List.range (l.length + 1)).map fun t => Nat.dist (i + 1) t := by
      rw [hrow, range_map_head l.length (fun t => Nat.dist (i + 1) t), hd0]
      congr 1
      apply List.map_congr_left
      intro a _
      congr 1
      omega
    rw [hnewrow]
    exact ih (i + 1) hrest (by omega)

/-- The DP edit distance of a string with itself is zero. -/
lemma editDistance_self (s : String) : editDistance s s = 0 := by
  show (levRows (jsToLower s).data (jsToLower s).data 0
      (List.range ((jsToLower s).data.length + 1))).getLastD 0 = 0
  have hrow0 : List.range ((jsToLower s).data.length + 1)
      = (List.range ((jsToLower s).data.length + 1)).map fun t => Nat.dist 0 t := by
    rw [show (fun t => Nat.dist 0 t) = fun t : Nat => t from ?_]
    · rw [List.map_id']
    · funext t
      simp [Nat.dist]
  rw [hrow0, levRows_self (jsToLower s).data (jsToLower s).data 0 (by rfl) (by omega)]
  rw [List.range_succ, List.map_append]
  simp [Nat.dist]

/-- A non-empty string has similarity 1 with itself. -/
lemma calculateSimilarity_self (s : String) (h : s ≠ "") : calculateSimilarity s s = 1 := by
  unfold calculateSimilarity
  have hlen : s.length ≠ 0 := by
    intro h0
    exact h (String.ext (List.length_eq_zero.mp h0))
  rw [if_neg (by simp [h])]
  simp only [lt_irrefl, if_false]
  rw [if_neg hlen, editDistance_self]
  rw [show ((s.length : ℚ) - (0 : ℕ)) = (s.length : ℚ) by norm_num]
  exact div_self (by exact_mod_cast hlen)

-- ==================== Duplicate guard theorems (C6, C10) ====================

/-- C6 counterexample: two entries whose titles and original URLs are all
empty are not flagged by a fresh service: calculateSimilarity returns 0
for an empty string, so the pairwise check fails and no hash is yet
recorded; isDuplicate returns false. -/
theorem isDuplicate_empty_inputs_not_flagged :
    (isDuplicate [] ⟨"", "", "", ""⟩ [⟨"", "", "", ""⟩]).1 = false := by
  have hsim : checkSimilarity ⟨"", "", "", ""⟩ ⟨"", "", "", ""⟩ similarityThreshold
      = false := by
    simp [checkSimilarity, calculateSimilarity, similarityThreshold]
    norm_num
  simp [isDuplicate, hsim]

/-- C6 amended: isDuplicate flags the candidate whenever some existing
entry has title similarity or original-url similarity strictly above
0.85 (in particular for identical non-empty titles, or identical
non-empty original URLs, whichever of the two was stored first); but two
entries whose titles and URLs are all empty get similarity 0, not 1, and
a fresh service does not flag them. -/
theorem isDuplicate_flags_similar (videoHashes : List String)
    (videoData : VideoData) (existingVideos : List VideoData) :
    ((∃ e ∈ existingVideos,
        calculateSimilarity videoData.title e.title > similarityThreshold
        ∨ calculateSimilarity videoData.originalUrl e.originalUrl > similarityThreshold) →
      (isDuplicate videoHashes videoData existingVideos).1 = true)
    ∧ (videoData ∈ existingVideos → videoData.title ≠ "" →
        (isDuplicate videoHashes videoData existingVideos).1 = true)
    ∧ (videoData ∈ existingVideos → videoData.originalUrl ≠ "" →
        (isDuplicate videoHashes videoData existingVideos).1 = true) := by
  have hthreshold : (0 : ℚ) ≤ similarityThreshold := by
    simp [similarityThreshold]
    norm_num
  have hmain : ∀ e ∈ existingVideos,
      checkSimilarity videoData e similarityThreshold = true →
      (isDuplicate videoHashes videoData existingVideos).1 = true := by
    intro e he hsim
    simp only [isDuplicate]
    split
    · rfl
    · rw [if_pos]
      exact List.any_eq_true.mpr ⟨e, he, hsim⟩
  have hsim_of : ∀ e : VideoData,
      calculateSimilarity videoData.title e.title > similarityThreshold
      ∨ calculateSimilarity videoData.originalUrl e.originalUrl > similarityThreshold →
      checkSimilarity videoData e similarityThreshold = true := by
    intro e hdis
    unfold checkSimilarity
    rcases hdis with hti | hur
    · simp only [decide_eq_true_eq]
      exact lt_of_lt_of_le hti (le_max_left _ _)
    · have hne : videoData.originalUrl ≠ "" ∧ e.originalUrl ≠ "" := by
        constructor
        · intro h0
          rw [h0] at hur
          simp [calculateSimilarity] at hur
          exact absurd (lt_of_le_of_lt hthreshold hur) (lt_irrefl 0)
        · intro h0
          rw [h0] at hur
          simp [calculateSimilarity] at hur
          exact absurd (lt_of_le_of_lt hthreshold hur) (lt_irrefl 0)
      rw [if_pos hne]
      simp only [decide_eq_true_eq]
      exact lt_of_lt_of_le hur (le_max_right _ _)
  refine ⟨?_, ?_, ?_⟩
  · rintro ⟨e, he, hdis⟩
    exact hmain e he (hsim_of e hdis)
  · intro hmem htitle
    refine hmain videoData hmem (hsim_of videoData (Or.inl ?_))
    rw [calculateSimilarity_self videoData.title htitle]
    simp [similarityThreshold]
    norm_num
  · intro hmem hurl
    refine hmain videoData hmem (hsim_of videoData (Or.inr ?_))
    rw [calculateSimilarity_self videoData.originalUrl hurl]
    simp [similarityThreshold]
    norm_num

/-- Witness for C6's amended statement: an entry identical to a stored
one with a non-empty title is flagged. -/
theorem isDuplicate_flags_similar_witness :
    (isDuplicate [] ⟨"id", "youtube", "A Title", ""⟩
      [⟨"id", "youtube", "A Title", ""⟩]).1 = true :=
  (isDuplicate_flags_similar [] ⟨"id", "youtube", "A Title", ""⟩
      [⟨"id", "youtube", "A Title", ""⟩]).2.1 (by simp) (by decide)

/-- The lowercase map distributes over string append. -/
lemma jsToLower_append (a b : String) : jsToLower (a ++ b) = jsToLower a ++ jsToLower b := by
  apply String.ext
  simp [jsToLower, String.data_append]

/-- C10: isDuplicate is stateful: a false verdict records the candidate's
hash, so any later candidate with the same lowercased videoId, type and
title is flagged even against an empty existingEntries list. -/
theorem isDuplicate_remembers_rejected (videoHashes : List String)
    (v1 : VideoData) (existingVideos : List VideoData) (v2 : VideoData)
    (hfalse : (isDuplicate videoHashes v1 existingVideos).1 = false)
    (hid : jsToLower v2.videoId = jsToLower v1.videoId)
    (hty : jsToLower v2.type = jsToLower v1.type)
    (hti : jsToLower v2.title = jsToLower v1.title) :
    (isDuplicate (isDuplicate videoHashes v1 existingVideos).2 v2 []).1 = true := by
  have hhash : generateVideoHash v2 = generateVideoHash v1 := by
    have hcontent : jsToLower (v2.videoId ++ "-" ++ v2.type ++ "-" ++ v2.title)
        = jsToLower (v1.videoId ++ "-" ++ v1.type ++ "-" ++ v1.title) := by
      simp only [jsToLower_append, hid, hty, hti]
    unfold generateVideoHash
    rw [hcontent]
  have hsnd : (isDuplicate videoHashes v1 existingVideos).2
      = generateVideoHash v1 :: videoHashes := by
    by_cases h1 : generateVideoHash v1 ∈ videoHashes
    · exfalso
      unfold isDuplicate at hfalse
      simp [h1] at hfalse
    · by_cases h2 : ∃ x ∈ existingVideos, checkSimilarity v1 x similarityThreshold = true
      · exfalso
        unfold isDuplicate at hfalse
        simp [h1, h2] at hfalse
      · unfold isDuplicate
        simp [h1, h2]
  rw [hsnd]
  unfold isDuplicate
  rw [if_pos]
  rw [hhash]
  simp

/-- Witness for C10 at concrete inputs: rejecting a candidate once makes
an identical later candidate a duplicate even with no existing entries. -/
theorem isDuplicate_remembers_rejected_witness :
    (isDuplicate (isDuplicate [] ⟨"id1", "youtube", "T", "u"⟩ []).2
      ⟨"id1", "youtube", "T", "u2"⟩ []).1 = true :=
  isDuplicate_remembers_rejected [] ⟨"id1", "youtube", "T", "u"⟩ []
    ⟨"id1", "youtube", "T", "u2"⟩ (by decide) rfl rfl rfl

-- ==================== Search theorems (C7) ====================

/-- The fuzzy loop with pointer si succeeds exactly when the unmatched
search suffix is a subsequence of the remaining text. -/
lemma fuzzyLoop_iff_sublist (search : List Char) :
    ∀ (text : List Char) (si : Nat), si < search.length →
      (fuzzyLoop search text si = true ↔ (search.drop si).Sublist text) := by
  intro text
  induction text with
  | nil =>
    intro si hsi
    simp only [fuzzyLoop]
    constructor
    · intro h
      exact absurd h (by simp)
    · intro h
      have : search.drop si = [] := List.sublist_nil.mp h
      have := congrArg List.length this
      simp at this
      omega
  | cons c rest ih =>
    intro si hsi
    have hdrop : search.drop si = search[si] :: search.drop (si + 1) :=
      List.drop_eq_getElem_cons hsi
    by_cases hc : search[si]? = some c
    · have hcel : search[si] = c := by
        rw [List.getElem?_eq_getElem hsi] at hc
        exact Option.some.inj hc
      by_cases hend : si + 1 = search.length
      · have hdrop2 : search.drop (si + 1) = [] := List.drop_eq_nil_of_le (by omega)
        have hloop : fuzzyLoop search (c :: rest) si = true := by
          simp [fuzzyLoop, hc, hend]
        rw [hloop]
        simp only [true_iff]
        rw [hdrop, hdrop2, hcel]
        exact (List.nil_sublist rest).cons₂ c
      · have hlt : si + 1 < search.length := by omega
        have hloop : fuzzyLoop search (c :: rest) si = fuzzyLoop search rest (si + 1) := by
          simp [fuzzyLoop, hc, hend]
        rw [hloop, ih (si + 1) hlt, hdrop, hcel]
        exact (List.cons_sublist_cons).symm
    · have hne : search[si] ≠ c := by
        intro he
        apply hc
        rw [List.getElem?_eq_getElem hsi, he]
      have hloop : fuzzyLoop search (c :: rest) si = fuzzyLoop search rest si := by
        have : ¬ si = search.length := by omega
        simp [fuzzyLoop, hc, this]
      rw [hloop, ih si hsi]
      constructor
      · intro h
        exact h.cons c
      · intro h
        rw [hdrop] at h ⊢
        cases h with
        | cons _ h => exact h
        | cons₂ h => exact absurd rfl hne

/-- C7: for a search term of length at least 2 (the minimum threshold),
searchVideos keeps exactly the videos, in order, for which some field
among title, description, type, tags, category and author contains every
character of the lowercased term in order (subsequence match on the
lowercased field value). -/
theorem searchVideos_keeps_subsequence_matches (videos : List CatalogVideo)
    (searchTerm : String) (hlen : MIN_SEARCH_LENGTH ≤ searchTerm.length) :
    (searchVideos videos searchTerm).Sublist videos
    ∧ ∀ video, video ∈ searchVideos videos searchTerm ↔
        video ∈ videos ∧ ∃ fieldValue ∈ searchFieldValues video,
          ((jsToLower searchTerm).data).Sublist ((jsToLower fieldValue).data) := by
  have hterm : 0 < (jsToLower searchTerm).data.length := by
    have : searchTerm.length = searchTerm.data.length := rfl
    simp only [jsToLower, MIN_SEARCH_LENGTH] at *
    simp
    omega
  constructor
  · exact List.filter_sublist videos
  · intro video
    rw [searchVideos, List.mem_filter]
    constructor
    · rintro ⟨hmem, hany⟩
      refine ⟨hmem, ?_⟩
      rcases List.any_eq_true.mp hany with ⟨f, hf, hmatch⟩
      refine ⟨f, hf, ?_⟩
      have := (fuzzyLoop_iff_sublist (jsToLower searchTerm).data
        (jsToLower f).data 0 hterm).mp hmatch
      simpa using this
    · rintro ⟨hmem, f, hf, hsub⟩
      refine ⟨hmem, List.any_eq_true.mpr ⟨f, hf, ?_⟩⟩
      exact (fuzzyLoop_iff_sublist (jsToLower searchTerm).data
        (jsToLower f).data 0 hterm).mpr (by simpa using hsub)

/-- Witness for C7 on a concrete catalog and term. -/
theorem searchVideos_keeps_subsequence_matches_witness :
    (searchVideos [] "ab").Sublist []
    ∧ ∀ video, video ∈ searchVideos [] "ab" ↔
        video ∈ ([] : List CatalogVideo) ∧ ∃ fieldValue ∈ searchFieldValues video,
          ((jsToLower "ab").data).Sublist ((jsToLower fieldValue).data) :=
  searchVideos_keeps_subsequence_matches [] "ab" (by decide)

-- ==================== Catalog view theorems (C9) ====================

/-- getPopularVideos only rearranges and trims its input. -/
lemma mem_getPopularVideos (stats : List (String × VideoStats)) (now : ℚ)
    (videos : List CatalogVideo) (limit : Nat) (v : CatalogVideo)
    (h : v ∈ getPopularVideos stats now videos limit) : v ∈ videos := by
  unfold getPopularVideos at h
  rcases List.mem_map.mp h with ⟨p, hp, hv⟩
  have hp2 := List.mem_of_mem_take hp
  have hp3 := (List.mergeSort_perm _ _).mem_iff.mp hp2
  rcases List.mem_map.mp hp3 with ⟨w, hw, hwp⟩
  rw [← hwp] at hv
  rw [← hv]
  exact hw

/-- Every sort branch returns a permutation or selection of its input. -/
lemma mem_sortVideos (env : SortEnv) (recentlyPlayed : List RPEntry)
    (stats : List (String × VideoStats)) (now : ℚ) (videos : List CatalogVideo)
    (sortOption : String) (v : CatalogVideo)
    (h : v ∈ sortVideos env recentlyPlayed stats now videos sortOption) : v ∈ videos := by
  unfold sortVideos at h
  split at h
  all_goals first
    | exact (List.mergeSort_perm _ _).mem_iff.mp h
    | exact mem_getPopularVideos _ _ _ _ _ h
    | exact h

/-- C9: the ingestion step drops every record whose status is inactive,
and every catalog view derived by the filter/search/sort pipeline only
selects from the ingested list, so no view ever contains an inactive
entry. -/
theorem catalog_views_exclude_inactive (env : SortEnv)
    (recentlyPlayed : List RPEntry) (stats : List (String × VideoStats)) (now : ℚ)
    (nowIso : String) (records : List AirtableRecord)
    (platform searchTerm sortOption : String) (video : CatalogVideo)
    (h : video ∈ applyFiltersAndSearch env recentlyPlayed stats now
        (getAllVideosPure nowIso records) platform searchTerm sortOption) :
    video.status ≠ "inactive" := by
  have hsv : ∀ (l : List CatalogVideo) (t : String), video ∈ searchVideos l t → video ∈ l := by
    intro l t hh
    rw [searchVideos] at hh
    exact (List.mem_filter.mp hh).1
  unfold applyFiltersAndSearch at h
  have h2 := mem_sortVideos env recentlyPlayed stats now _ sortOption video h
  have h3 : video ∈ getAllVideosPure nowIso records := by
    split at h2
    · have h4 := hsv _ _ h2
      split at h4
      · exact (List.mem_filter.mp h4).1
      · exact h4
    · split at h2
      · exact (List.mem_filter.mp h2).1
      · exact h2
  rw [getAllVideosPure] at h3
  have h5 := (List.mem_filter.mp h3).2
  simpa using h5

/-- A concrete active record for the C9 witness. -/
def c9Record : AirtableRecord :=
  { id := "rec1",
    fields := { videoId := none, title := some "T", description := none,
                type := none, duration := none, url := none, embedUrls := none,
                thumbnail := none, createdAt := some "2024", status := some "active",
                viewCount := none, tags := none, category := none, author := none } }

/-- A sort environment whose platform functions are never consulted by
the witness run. -/
def c9Env : SortEnv := ⟨fun _ _ => 0, fun _ => none⟩

/-- Witness for C9: a concrete view run contains the mapped record, and
the theorem yields its status constraint. -/
theorem catalog_views_exclude_inactive_witness :
    (mapRecord "now" c9Record).status ≠ "inactive" :=
  catalog_views_exclude_inactive c9Env [] [] 0 "now" [c9Record] "all" "" "default"
    (mapRecord "now" c9Record) (by decide)

-- ==================== Parser theorems (C8) ====================

/-- The platform identifiers of the thirteen platform parsers. -/
def knownTypes : List String :=
  ["youtube", "youtube_playlist", "drive", "vimeo", "dailymotion", "facebook",
   "instagram", "tiktok", "twitter", "twitch", "streamable", "dropbox",
   "photos", "direct"]

/-- btoa succeeds on Latin-1 input. -/
lemma btoaId_latin1 (url : String) (h : ∀ c ∈ url.data, c.toNat ≤ 255) :
    ∃ s, btoaId url = .ok s := by
  unfold btoaId jsBtoa
  rw [if_pos (List.all_eq_true.mpr fun c hc => decide_eq_true (h c hc))]
  exact ⟨_, rfl⟩

/-- Shape of any successful parseYouTube result. -/
lemma parseYouTube_result (env : JSEnv) (url : String) (r : ParsedVideo)
    (h : parseYouTube env url = .ok (some r)) :
    r.embedUrls ≠ [] ∧ r.type ∈ knownTypes ∧ r.originalUrl = none := by
  simp only [parseYouTube] at h
  repeat' split at h
  all_goals simp only [Except.ok.injEq, Option.some.injEq] at h
  all_goals try exact absurd h (by simp)
  all_goals subst h
  all_goals unfold mkYouTubeResult
  all_goals split
  all_goals exact ⟨by simp, by simp [knownTypes], rfl⟩

/-- Shape of any successful parseGoogleDrive result. -/
lemma parseGoogleDrive_result (env : JSEnv) (url : String) (r : ParsedVideo)
    (h : parseGoogleDrive env url = .ok (some r)) :
    r.embedUrls ≠ [] ∧ r.type ∈ knownTypes ∧ r.originalUrl = none := by
  simp only [parseGoogleDrive] at h
  repeat' split at h
  all_goals simp only [Except.ok.injEq, Option.some.injEq] at h
  all_goals first
    | exact Option.noConfusion h
    | (subst h
       exact ⟨by simp, by simp [knownTypes], rfl⟩)

/-- Shape of any successful parseVimeo result. -/
lemma parseVimeo_result (env : JSEnv) (url : String) (r : ParsedVideo)
    (h : parseVimeo env url = .ok (some r)) :
    r.embedUrls ≠ [] ∧ r.type ∈ knownTypes ∧ r.originalUrl = none := by
  simp only [parseVimeo] at h
  repeat' split at h
  all_goals simp only [Except.ok.injEq, Option.some.injEq] at h
  all_goals first
    | exact Option.noConfusion h
    | (subst h
       exact ⟨by simp, by simp [knownTypes], rfl⟩)

/-- Shape of any successful parseDailymotion result. -/
lemma parseDailymotion_result (env : JSEnv) (url : String) (r : ParsedVideo)
    (h : parseDailymotion env url = .ok (some r)) :
    r.embedUrls ≠ [] ∧ r.type ∈ knownTypes ∧ r.originalUrl = none := by
  simp only [parseDailymotion] at h
  repeat' split at h
  all_goals simp only [Except.ok.injEq, Option.some.injEq] at h
  all_goals first
    | exact Option.noConfusion h
    | (subst h
       exact ⟨by simp, by simp [knownTypes], rfl⟩)

/-- Shape of any successful parseFacebook result. -/
lemma parseFacebook_result (env : JSEnv) (url : String) (r : ParsedVideo)
    (h : parseFacebook env url = .ok (some r)) :
    r.embedUrls ≠ [] ∧ r.type ∈ knownTypes ∧ r.originalUrl = none := by
  simp only [parseFacebook] at h
  split at h
  · cases hb : btoaId url with
    | error e =>
      rw [hb] at h
      exact absurd h (by simp [Bind.bind, Except.bind])
    | ok vid =>
      rw [hb] at h
      simp only [Bind.bind, Except.bind, Pure.pure, Except.pure, Except.ok.injEq,
        Option.some.injEq] at h
      subst h
      exact ⟨by simp, by simp [knownTypes], rfl⟩
  · exact absurd h (by simp)

/-- Shape of any successful parseInstagram result. -/
lemma parseInstagram_result (env : JSEnv) (url : String) (r : ParsedVideo)
    (h : parseInstagram env url = .ok (some r)) :
    r.embedUrls ≠ [] ∧ r.type ∈ knownTypes ∧ r.originalUrl = none := by
  simp only [parseInstagram] at h
  repeat' split at h
  all_goals simp only [Except.ok.injEq, Option.some.injEq] at h
  all_goals first
    | exact Option.noConfusion h
    | (subst h
       exact ⟨by simp, by simp [knownTypes], rfl⟩)

/-- Shape of any successful parseTikTok result. -/
lemma parseTikTok_result (env : JSEnv) (url : String) (r : ParsedVideo)
    (h : parseTikTok env url = .ok (some r)) :
    r.embedUrls ≠ [] ∧ r.type ∈ knownTypes ∧ r.originalUrl = none := by
  simp only [parseTikTok] at h
  repeat' split at h
  all_goals simp only [Except.ok.injEq, Option.some.injEq] at h
  all_goals first
    | exact Option.noConfusion h
    | (subst h
       exact ⟨by simp, by simp [knownTypes], rfl⟩)

/-- Shape of any successful parseTwitter result. -/
lemma parseTwitter_result (env : JSEnv) (url : String) (r : ParsedVideo)
    (h : parseTwitter env url = .ok (some r)) :
    r.embedUrls ≠ [] ∧ r.type ∈ knownTypes ∧ r.originalUrl = none := by
  simp only [parseTwitter] at h
  split at h
  · cases hb : btoaId url with
    | error e =>
      rw [hb] at h
      exact absurd h (by simp [Bind.bind, Except.bind])
    | ok vid =>
      rw [hb] at h
      simp only [Bind.bind, Except.bind, Pure.pure, Except.pure, Except.ok.injEq,
        Option.some.injEq] at h
      subst h
      exact ⟨by simp, by simp [knownTypes], rfl⟩
  · exact absurd h (by simp)

/-- Shape of any successful parseTwitch result. -/
lemma parseTwitch_result (env : JSEnv) (url : String) (r : ParsedVideo)
    (h : parseTwitch env url = .ok (some r)) :
    r.embedUrls ≠ [] ∧ r.type ∈ knownTypes ∧ r.originalUrl = none := by
  simp only [parseTwitch] at h
  repeat' split at h
  all_goals simp only [Except.ok.injEq, Option.some.injEq] at h
  all_goals first
    | exact Option.noConfusion h
    | (subst h
       exact ⟨by simp, by simp [knownTypes], rfl⟩)

/-- Shape of any successful parseStreamable result. -/
lemma parseStreamable_result (env : JSEnv) (url : String) (r : ParsedVideo)
    (h : parseStreamable env url = .ok (some r)) :
    r.embedUrls ≠ [] ∧ r.type ∈ knownTypes ∧ r.originalUrl = none := by
  simp only [parseStreamable] at h
  repeat' split at h
  all_goals simp only [Except.ok.injEq, Option.some.injEq] at h
  all_goals first
    | exact Option.noConfusion h
    | (subst h
       exact ⟨by simp, by simp [knownTypes], rfl⟩)

/-- Shape of any successful parseDropbox result. -/
lemma parseDropbox_result (env : JSEnv) (url : String) (r : ParsedVideo)
    (h : parseDropbox env url = .ok (some r)) :
    r.embedUrls ≠ [] ∧ r.type ∈ knownTypes ∧ r.originalUrl = none := by
  simp only [parseDropbox] at h
  repeat' split at h
  all_goals simp only [Except.ok.injEq, Option.some.injEq] at h
  all_goals first
    | exact Option.noConfusion h
    | (subst h
       exact ⟨by simp, by simp [knownTypes], rfl⟩)

/-- Shape of any successful parseGooglePhotos result. -/
lemma parseGooglePhotos_result (env : JSEnv) (url : String) (r : ParsedVideo)
    (h : parseGooglePhotos env url = .ok (some r)) :
    r.embedUrls ≠ [] ∧ r.type ∈ knownTypes ∧ r.originalUrl = none := by
  simp only [parseGooglePhotos] at h
  split at h
  · cases hb : btoaId url with
    | error e =>
      rw [hb] at h
      exact absurd h (by simp [Bind.bind, Except.bind])
    | ok vid =>
      rw [hb] at h
      simp only [Bind.bind, Except.bind, Pure.pure, Except.pure, Except.ok.injEq,
        Option.some.injEq] at h
      subst h
      exact ⟨by simp, by simp [knownTypes], rfl⟩
  · exact absurd h (by simp)

/-- Shape of any successful parseDirectVideo result. -/
lemma parseDirectVideo_result (env : JSEnv) (url : String) (r : ParsedVideo)
    (h : parseDirectVideo env url = .ok (some r)) :
    r.embedUrls ≠ [] ∧ r.type ∈ knownTypes ∧ r.originalUrl = none := by
  simp only [parseDirectVideo] at h
  split at h
  · cases hb : btoaId url with
    | error e =>
      rw [hb] at h
      exact absurd h (by simp [Bind.bind, Except.bind])
    | ok vid =>
      rw [hb] at h
      simp only [Bind.bind, Except.bind, Pure.pure, Except.pure, Except.ok.injEq,
        Option.some.injEq] at h
      subst h
      exact ⟨by simp, by simp [knownTypes], rfl⟩
  · exact absurd h (by simp)

/-- parseYouTube never throws. -/
lemma parseYouTube_total (env : JSEnv) (url : String) :
    ∃ r, parseYouTube env url = .ok r := by
  cases hp : parseYouTube env url with
  | ok r => exact ⟨r, rfl⟩
  | error e =>
    exfalso
    simp only [parseYouTube] at hp
    repeat' split at hp
    all_goals exact Except.noConfusion hp

/-- parseGoogleDrive never throws. -/
lemma parseGoogleDrive_total (env : JSEnv) (url : String) :
    ∃ r, parseGoogleDrive env url = .ok r := by
  cases hp : parseGoogleDrive env url with
  | ok r => exact ⟨r, rfl⟩
  | error e =>
    exfalso
    simp only [parseGoogleDrive] at hp
    repeat' split at hp
    all_goals exact Except.noConfusion hp

/-- parseVimeo never throws. -/
lemma parseVimeo_total (env : JSEnv) (url : String) :
    ∃ r, parseVimeo env url = .ok r := by
  cases hp : parseVimeo env url with
  | ok r => exact ⟨r, rfl⟩
  | error e =>
    exfalso
    simp only [parseVimeo] at hp
    repeat' split at hp
    all_goals exact Except.noConfusion hp

/-- parseDailymotion never throws. -/
lemma parseDailymotion_total (env : JSEnv) (url : String) :
    ∃ r, parseDailymotion env url = .ok r := by
  cases hp : parseDailymotion env url with
  | ok r => exact ⟨r, rfl⟩
  | error e =>
    exfalso
    simp only [parseDailymotion] at hp
    repeat' split at hp
    all_goals exact Except.noConfusion hp

/-- parseFacebook never throws on Latin-1 input. -/
lemma parseFacebook_total (env : JSEnv) (url : String)
    (h : ∀ c ∈ url.data, c.toNat ≤ 255) : ∃ r, parseFacebook env url = .ok r := by
  obtain ⟨s, hs⟩ := btoaId_latin1 url h
  cases hp : parseFacebook env url with
  | ok r => exact ⟨r, rfl⟩
  | error e =>
    exfalso
    simp only [parseFacebook] at hp
    split at hp
    · rw [hs] at hp
      simp [Bind.bind, Except.bind, Pure.pure, Except.pure] at hp
    · exact Except.noConfusion hp

/-- parseInstagram never throws. -/
lemma parseInstagram_total (env : JSEnv) (url : String) :
    ∃ r, parseInstagram env url = .ok r := by
  cases hp : parseInstagram env url with
  | ok r => exact ⟨r, rfl⟩
  | error e =>
    exfalso
    simp only [parseInstagram] at hp
    repeat' split at hp
    all_goals exact Except.noConfusion hp

/-- parseTikTok never throws. -/
lemma parseTikTok_total (env : JSEnv) (url : String) :
    ∃ r, parseTikTok env url = .ok r := by
  cases hp : parseTikTok env url with
  | ok r => exact ⟨r, rfl⟩
  | error e =>
    exfalso
    simp only [parseTikTok] at hp
    repeat' split at hp
    all_goals exact Except.noConfusion hp

/-- parseTwitter never throws on Latin-1 input. -/
lemma parseTwitter_total (env : JSEnv) (url : String)
    (h : ∀ c ∈ url.data, c.toNat ≤ 255) : ∃ r, parseTwitter env url = .ok r := by
  obtain ⟨s, hs⟩ := btoaId_latin1 url h
  cases hp : parseTwitter env url with
  | ok r => exact ⟨r, rfl⟩
  | error e =>
    exfalso
    simp only [parseTwitter] at hp
    split at hp
    · rw [hs] at hp
      simp [Bind.bind, Except.bind, Pure.pure, Except.pure] at hp
    · exact Except.noConfusion hp

/-- parseTwitch never throws. -/
lemma parseTwitch_total (env : JSEnv) (url : String) :
    ∃ r, parseTwitch env url = .ok r := by
  cases hp : parseTwitch env url with
  | ok r => exact ⟨r, rfl⟩
  | error e =>
    exfalso
    simp only [parseTwitch] at hp
    repeat' split at hp
    all_goals exact Except.noConfusion hp

/-- parseStreamable never throws. -/
lemma parseStreamable_total (env : JSEnv) (url : String) :
    ∃ r, parseStreamable env url = .ok r := by
  cases hp : parseStreamable env url with
  | ok r => exact ⟨r, rfl⟩
  | error e =>
    exfalso
    simp only [parseStreamable] at hp
    repeat' split at hp
    all_goals exact Except.noConfusion hp

/-- parseDropbox never throws. -/
lemma parseDropbox_total (env : JSEnv) (url : String) :
    ∃ r, parseDropbox env url = .ok r := by
  cases hp : parseDropbox env url with
  | ok r => exact ⟨r, rfl⟩
  | error e =>
    exfalso
    simp only [parseDropbox] at hp
    repeat' split at hp
    all_goals exact Except.noConfusion hp

/-- parseGooglePhotos never throws on Latin-1 input. -/
lemma parseGooglePhotos_total (env : JSEnv) (url : String)
    (h : ∀ c ∈ url.data, c.toNat ≤ 255) : ∃ r, parseGooglePhotos env url = .ok r := by
  obtain ⟨s, hs⟩ := btoaId_latin1 url h
  cases hp : parseGooglePhotos env url with
  | ok r => exact ⟨r, rfl⟩
  | error e =>
    exfalso
    simp only [parseGooglePhotos] at hp
    split at hp
    · rw [hs] at hp
      simp [Bind.bind, Except.bind, Pure.pure, Except.pure] at hp
    · exact Except.noConfusion hp

/-- parseDirectVideo never throws on Latin-1 input. -/
lemma parseDirectVideo_total (env : JSEnv) (url : String)
    (h : ∀ c ∈ url.data, c.toNat ≤ 255) : ∃ r, parseDirectVideo env url = .ok r := by
  obtain ⟨s, hs⟩ := btoaId_latin1 url h
  cases hp : parseDirectVideo env url with
  | ok r => exact ⟨r, rfl⟩
  | error e =>
    exfalso
    simp only [parseDirectVideo] at hp
    split at hp
    · rw [hs] at hp
      simp [Bind.bind, Except.bind, Pure.pure, Except.pure] at hp
    · exact Except.noConfusion hp

/-- If every parser of the list succeeds, so does the chain. -/
lemma tryParsers_total (env : JSEnv) (url : String) :
    ∀ ps : List (JSEnv → String → Except Unit (Option ParsedVideo)),
      (∀ p ∈ ps, ∃ r, p env url = .ok r) →
      ∃ r, tryParsers env url ps = .ok r := by
  intro ps
  induction ps with
  | nil => exact fun _ => ⟨none, rfl⟩
  | cons p rest ih =>
    intro h
    obtain ⟨r, hr⟩ := h p (by simp)
    have hrest := ih fun q hq => h q (by simp [hq])
    cases r with
    | none =>
      obtain ⟨r2, hr2⟩ := hrest
      refine ⟨r2, ?_⟩
      simp only [tryParsers, hr]
      exact hr2
    | some pv =>
      refine ⟨some pv, ?_⟩
      simp only [tryParsers, hr]

/-- A successful chain verdict comes from one of its parsers. -/
lemma tryParsers_some (env : JSEnv) (url : String) (pv : ParsedVideo) :
    ∀ ps : List (JSEnv → String → Except Unit (Option ParsedVideo)),
      tryParsers env url ps = .ok (some pv) →
      ∃ p ∈ ps, p env url = .ok (some pv) := by
  intro ps
  induction ps with
  | nil => intro h; exact absurd h (by simp [tryParsers])
  | cons p rest ih =>
    intro h
    simp only [tryParsers] at h
    split at h
    · exact Except.noConfusion h
    · rename_i heq
      rcases Except.ok.inj h with h2
      rw [h2] at heq
      exact ⟨p, by simp, heq⟩
    · obtain ⟨q, hq, hqv⟩ := ih h
      exact ⟨q, by simp [hq], hqv⟩

/-- Every parser of the chain succeeds on Latin-1 input. -/
lemma parserChain_total (env : JSEnv) (url : String)
    (h : ∀ c ∈ url.data, c.toNat ≤ 255) :
    ∀ p ∈ parserChain, ∃ r, p env url = .ok r := by
  intro p hp
  simp only [parserChain, List.mem_cons, List.not_mem_nil, or_false] at hp
  rcases hp with rfl | rfl | rfl | rfl | rfl | rfl | rfl | rfl | rfl | rfl | rfl | rfl | rfl
  · exact parseYouTube_total env url
  · exact parseGoogleDrive_total env url
  · exact parseVimeo_total env url
  · exact parseDailymotion_total env url
  · exact parseFacebook_total env url h
  · exact parseInstagram_total env url
  · exact parseTikTok_total env url
  · exact parseTwitter_total env url h
  · exact parseTwitch_total env url
  · exact parseStreamable_total env url
  · exact parseDropbox_total env url
  · exact parseGooglePhotos_total env url h
  · exact parseDirectVideo_total env url h

/-- Any successful result of a chain parser has a non-empty candidate
list, a known platform type, and no originalUrl of its own. -/
lemma parserChain_result (env : JSEnv) (url : String) (pv : ParsedVideo)
    (p : JSEnv → String → Except Unit (Option ParsedVideo)) (hp : p ∈ parserChain)
    (h : p env url = .ok (some pv)) :
    pv.embedUrls ≠ [] ∧ pv.type ∈ knownTypes ∧ pv.originalUrl = none := by
  simp only [parserChain, List.mem_cons, List.not_mem_nil, or_false] at hp
  rcases hp with rfl | rfl | rfl | rfl | rfl | rfl | rfl | rfl | rfl | rfl | rfl | rfl | rfl
  · exact parseYouTube_result env url pv h
  · exact parseGoogleDrive_result env url pv h
  · exact parseVimeo_result env url pv h
  · exact parseDailymotion_result env url pv h
  · exact parseFacebook_result env url pv h
  · exact parseInstagram_result env url pv h
  · exact parseTikTok_result env url pv h
  · exact parseTwitter_result env url pv h
  · exact parseTwitch_result env url pv h
  · exact parseStreamable_result env url pv h
  · exact parseDropbox_result env url pv h
  · exact parseGooglePhotos_result env url pv h
  · exact parseDirectVideo_result env url pv h

/-- C8 amended: on every non-empty Latin-1 url (all characters at most
U+00FF) parseURL succeeds with a non-empty embedUrls list; when one of
the thirteen platform parsers matches, the result is that first match
with a known platform type and originalUrl set to the input verbatim;
when none matches, the result is the parseUnknown fallback with type
other, embedUrls [url], and (unlike the platform branches) no
originalUrl.  On strings with characters above U+00FF reaching a
btoa-based branch, parseURL can instead throw (see the
counterexample). -/
theorem parseURL_total_on_latin1 (env : JSEnv) (url : String) (h1 : url ≠ "")
    (h2 : ∀ c ∈ url.data, c.toNat ≤ 255) :
    ∃ v, parseURL env url = .ok (some v) ∧ v.embedUrls ≠ [] ∧
      ((∃ pv, tryParsers env url parserChain = .ok (some pv)
          ∧ v = { pv with originalUrl := some url } ∧ pv.type ∈ knownTypes)
       ∨ (tryParsers env url parserChain = .ok none ∧ v.type = "other"
          ∧ v.embedUrls = [url] ∧ v.originalUrl = none)) := by
  obtain ⟨r, hr⟩ := tryParsers_total env url parserChain (parserChain_total env url h2)
  cases r with
  | some pv =>
    obtain ⟨p, hp, hpv⟩ := tryParsers_some env url pv parserChain hr
    obtain ⟨hne, hty, _⟩ := parserChain_result env url pv p hp hpv
    refine ⟨{ pv with originalUrl := some url }, ?_, ?_, Or.inl ⟨pv, hr, rfl, hty⟩⟩
    · simp only [parseURL, if_neg h1, hr]
    · simpa using hne
  | none =>
    obtain ⟨s, hs⟩ := btoaId_latin1 url h2
    refine ⟨{ videoId := s, type := "other", embedUrls := [url], thumbnail := "",
              title := "Custom Video", description := "Video from unknown source",
              originalUrl := none }, ?_, by simp, Or.inr ⟨hr, rfl, rfl, rfl⟩⟩
    simp only [parseURL, if_neg h1, hr, parseUnknown]
    rw [hs]
    rfl

/-- C8 counterexample: parseURL is not total on all non-empty strings:
on the one-character string U+0100 no platform matcher fires, and the
parseUnknown fallback calls btoa, which throws InvalidCharacterError on
characters above U+00FF. -/
theorem parseURL_throws_on_non_latin1 :
    parseURL ⟨"https://site.example", "site.example"⟩ "Ā" = .error ()
    ∧ ("Ā" : String) ≠ "" := by
  constructor
  · rfl
  · decide

/-- Witness for C8's amended statement on a concrete YouTube url. -/
theorem parseURL_total_on_latin1_witness :
    ∃ v, parseURL ⟨"https://site.example", "site.example"⟩ "https://youtu.be/abc123"
        = .ok (some v) ∧ v.embedUrls ≠ [] ∧
      ((∃ pv, tryParsers ⟨"https://site.example", "site.example"⟩
            "https://youtu.be/abc123" parserChain = .ok (some pv)
          ∧ v = { pv with originalUrl := some "https://youtu.be/abc123" }
          ∧ pv.type ∈ knownTypes)
       ∨ (tryParsers ⟨"https://site.example", "site.example"⟩
            "https://youtu.be/abc123" parserChain = .ok none
          ∧ v.type = "other" ∧ v.embedUrls = ["https://youtu.be/abc123"]
          ∧ v.originalUrl = none)) :=
  parseURL_total_on_latin1 ⟨"https://site.example", "site.example"⟩
    "https://youtu.be/abc123" (by decide) (by decide)
